import Mathlib

/-!
# TActionContext: the per-request action-dispatch pipeline

A shallow embedding of `src/tactioncontext.cpp` (TreeFrog framework).

* The members of `TActionContext` that the file reads and writes become the
  fields of the structure `TActionContext`; member functions become state
  transformers in the monad `Act` (state plus C++ exceptions).
* Every call that leaves the file (controller, session manager, pools,
  transport, access logger) appends an `Event` to `TActionContext.trace`, in
  program order, so that "is invoked", "exactly once" and "before" are
  statements about that list.
* What a collaborator answers is an input: the configuration and the
  framework services are the fields of `Env`, the controller resolved by the
  dispatcher is a `TActionController` value whose hooks say which database
  handles they ask for and how they end (a value or an exception).
* Exceptions come from where the file itself throws (lines 64 and 195), from
  the session manager (`findSession`, `remove`, `generateId`, `store`,
  `collectGarbage`), from `verifyRequest`, from the pools and from the three
  hooks of the controller (`preFilter`, the action, `postFilter`). The access
  logger, the transaction coordinator and the transport are sinks that
  return.
* The transport reports a `qint64` byte count, which the file narrows to
  `int` before it reaches the access log (`narrowToInt`).

The file has three parts: the embedding, the vocabulary of the proofs
(summaries, invariants, example environments), and the theorems, which end
with the ten claims `C1` to `C10`.
-/

namespace TreeFrog

/-! ## Values -/

/-- Modelled from the spec: the enumeration `Tf::HttpMethod` is declared in a
header that is not part of the source. `execute` tests the method against
`Get`, `Post`, `Put` and `Delete`; `Other` stands for every method that is
none of the five named here. -/
inductive HttpMethod
  | Get | Head | Post | Put | Delete | Other
  deriving DecidableEq, Repr

/-- The exception classes that `execute` catches (lines 311-340); `other` is
whatever reaches `catch (...)`. Messages and source positions are dropped. -/
inductive Fault
  | clientError (statusCode : Nat)
  | sql
  | kvs
  | security
  | runtime
  | standard
  | other
  deriving DecidableEq, Repr

/-- A `QDateTime`: `none` is the invalid (null) value, `some t` an instant. -/
abbrev QDateTime := Option Nat

/-- A `QSqlDatabase` handle. `connection = none` is the default-constructed
handle, for which `isValid()` is false. -/
structure QSqlDatabase where
  connection : Option Nat
  hasTransactions : Bool
  deriving DecidableEq, Repr

instance : Inhabited QSqlDatabase := ⟨⟨none, false⟩⟩

/-- Mirrors `QSqlDatabase::isValid()`. -/
def QSqlDatabase.isValid (db : QSqlDatabase) : Bool := db.connection.isSome

/-- A `TKvsDatabase` handle; `connection = none` is the invalid one. -/
structure TKvsDatabase where
  connection : Option Nat
  deriving DecidableEq, Repr

instance : Inhabited TKvsDatabase := ⟨⟨none⟩⟩

/-- Mirrors `TKvsDatabase::isValid()`. -/
def TKvsDatabase.isValid (db : TKvsDatabase) : Bool := db.connection.isSome

/-- A `TSession`, reduced to its identifier. -/
structure TSession where
  sessionId : String
  deriving DecidableEq, Repr

instance : Inhabited TSession := ⟨⟨""⟩⟩

/-- Mirrors `TSession::id()`. -/
def TSession.id (s : TSession) : String := s.sessionId

/-- A `TRouting` value: controller, action, positional parameters. -/
structure TRouting where
  controller : String
  action : String
  params : List String
  deriving DecidableEq, Repr

instance : Inhabited TRouting := ⟨⟨"", "", []⟩⟩

/-- Modelled from the spec: `TRouting::isEmpty()` is declared in `turlroute.h`,
which is not part of the source; the empty routing decision ("no match") is the
one that names no controller. -/
def TRouting.isEmpty (rt : TRouting) : Bool := rt.controller.isEmpty

/-- Mirrors `TRouting::setRouting(controller, action, params)`. -/
def TRouting.setRouting (_rt : TRouting) (controller action : String)
    (params : List String) : TRouting :=
  ⟨controller, action, params⟩

/-- A `THttpResponseHeader`, reduced to what `writeResponse` sets. -/
structure THttpResponseHeader where
  statusCode : Nat
  reasonPhrase : String
  contentType : String
  contentLength : Nat
  rawHeaders : List (String × String)
  date : QDateTime
  deriving DecidableEq, Repr

instance : Inhabited THttpResponseHeader := ⟨⟨0, "", "", 0, [], none⟩⟩

/-- Mirrors `setStatusLine(code, text)`. -/
def THttpResponseHeader.setStatusLine (h : THttpResponseHeader) (code : Nat)
    (text : String) : THttpResponseHeader :=
  { h with statusCode := code, reasonPhrase := text }

/-- Mirrors `setContentType(type)`. -/
def THttpResponseHeader.setContentType (h : THttpResponseHeader) (type : String) :
    THttpResponseHeader :=
  { h with contentType := type }

/-- Mirrors `setContentLength(len)`. -/
def THttpResponseHeader.setContentLength (h : THttpResponseHeader) (len : Nat) :
    THttpResponseHeader :=
  { h with contentLength := len }

/-- Mirrors `setRawHeader(key, value)`: replaces the header of that name, or
adds it. -/
def THttpResponseHeader.setRawHeader (h : THttpResponseHeader) (key value : String) :
    THttpResponseHeader :=
  { h with rawHeaders := (h.rawHeaders.filter (fun kv => kv.1 != key)) ++ [(key, value)] }

/-- Mirrors `setCurrentDate()`, at the instant the clock shows. -/
def THttpResponseHeader.setCurrentDate (h : THttpResponseHeader) (now : Nat) :
    THttpResponseHeader :=
  { h with date := some now }

/-- Mirrors `rawHeader(key)`: the value, or the empty byte array. -/
def THttpResponseHeader.rawHeader (h : THttpResponseHeader) (key : String) : String :=
  ((h.rawHeaders.find? (fun kv => kv.1 == key)).map Prod.snd).getD ""

/-- The body handed to the transport together with a header. -/
inductive Body
  | file (path : String)
  | buffer (content : String)
  | controllerBody
  deriving DecidableEq, Repr

/-- The record kept by the access logger. -/
structure TAccessLog where
  timestamp : QDateTime
  request : String
  remoteHost : String
  statusCode : Nat
  responseBytes : Int
  deriving DecidableEq, Repr

instance : Inhabited TAccessLog := ⟨⟨none, "", "", 0, 0⟩⟩

/-- What `QFileInfo` reports about a path. -/
structure QFileInfo where
  isFile : Bool
  isReadable : Bool
  lastModified : QDateTime
  suffix : String
  size : Nat
  deriving DecidableEq, Repr

/-! ## The trace of calls that leave the file -/

/-- One call made by `TActionContext` on a collaborator. -/
inductive Event
  | accessLogOpen
  | accessLogWrite (record : TAccessLog)
  | createController (name : String)
  | setActionName (action : String)
  | findSession (id : String)
  | setSession (s : TSession)
  | exportAllFlashVariants
  | verifyRequest
  | sessionRemove (id : String)
  | generateId
  | setCsrfProtectionInto
  | transactionsSetEnabled (b : Bool)
  | preFilter
  | invoke (action : String) (params : List String)
  | postFilter
  | commitTransactions
  | rollbackTransactions
  | beginTransaction (db : QSqlDatabase)
  | sqlDatabase (id : Int) (db : QSqlDatabase)
  | sqlPool (db : QSqlDatabase)
  | kvsDatabase (type : Int) (db : TKvsDatabase)
  | kvsPool (db : TKvsDatabase)
  | sessionStore (s : TSession)
  | addCookie (name value : String) (expire : QDateTime) (path : String)
  | writeResponse (header : THttpResponseHeader) (body : Body)
  | collectGarbage
  | closeHttpSocket
  | deleteTemporaryFile (file : Nat)
  | removeFile (path : String)
  deriving DecidableEq, Repr

/-! ## QMap -/

/-- A `QMap<int, T>`: the entries in ascending key order. -/
abbrev QMap (α : Type) := List (Int × α)

namespace QMap

variable {α : Type}

/-- Mirrors `QMap::contains(key)`. -/
def contains (m : QMap α) (k : Int) : Bool := m.any (fun kv => kv.1 == k)

/-- Mirrors `QMap::value(key)`: the stored value, or a default-constructed one. -/
def value [Inhabited α] (m : QMap α) (k : Int) : α :=
  match m with
  | [] => default
  | (k', v) :: rest => if k' = k then v else value rest k

/-- Mirrors `QMap::insert(key, value)`: replaces the value of `key` or adds the
entry at its place in key order. -/
def insert (m : QMap α) (k : Int) (v : α) : QMap α :=
  match m with
  | [] => [(k, v)]
  | (k', v') :: rest =>
    if k < k' then (k, v) :: (k', v') :: rest
    else if k = k' then (k, v) :: rest
    else (k', v') :: insert rest k v

/-- The map after `m[key]` was evaluated: `operator[]` inserts a
default-constructed value when the key is absent. -/
def touch [Inhabited α] (m : QMap α) (k : Int) : QMap α :=
  if m.contains k then m else m.insert k default

end QMap

/-! ## Collaborators -/

/-- A call made on the context by controller code while a hook runs, together
with what the pool answers if the context asks it: `getSqlDatabase(id)` with
the result of `TSqlDatabasePool2::instance()->database(id)`, or
`getKvsDatabase(type)` with the result of
`TKvsDatabasePool2::instance()->database(type)`. -/
inductive ContextCall
  | sql (id : Int) (pooled : Except Fault QSqlDatabase)
  | kvs (type : Int) (pooled : Except Fault TKvsDatabase)

/-- A piece of controller code: the calls it makes on the context, in order,
and how it ends (the value it returns or the exception that leaves it, which
may be one thrown by a call it did not catch). -/
structure Hook (α : Type) where
  calls : List ContextCall
  result : Except Fault α

/-- The incoming `THttpRequest` with its `THttpRequestHeader`. -/
structure THttpRequest where
  method : HttpMethod
  headerMethod : String
  path : String
  majorVersion : Nat
  minorVersion : Nat
  rawHeader : String → String
  cookie : String → String
  clientAddress : String

/-- The controller object created by the dispatcher, as `execute` sees it: the
values of its flags, the behaviour of its virtual hooks and the response it
holds when `execute` reads it. -/
structure TActionController where
  sessionEnabled : Bool
  csrfProtectionEnabled : Bool
  exceptionActionsOfCsrfProtection : List String
  transactionEnabled : Bool
  verifyRequest : THttpRequest → Except Fault Bool
  preFilter : Hook Bool
  invoke : String → List String → Hook Bool
  postFilter : Hook Unit
  rollbackRequested : Bool
  autoRemoveFiles : List String
  contentType : String
  isBodyNull : Bool
  statusCode : Nat
  bodyLength : Nat

/-- Configuration and framework services read by the file (`Tf::app()`,
`Tf::appSettings()`, `THttpUtility`, `TUrlRoute`, `TDispatcher`,
`TSessionManager`, the file system, the clock and the transport). -/
structure Env where
  isSqlDatabaseAvailable : Bool
  sqlDatabaseSettingsCount : Int
  directViewRenderMode : Bool
  enableCsrfProtectionModule : Bool
  sessionAutoIdRegeneration : Bool
  sessionCookiePath : String
  listenPort : Nat
  publicPath : String
  codecForHttpOutput : String
  internetMediaType : String → String
  fromUrlEncoding : String → String
  getResponseReasonPhrase : Nat → String
  fromHttpDateTimeString : String → QDateTime
  toHttpDateTimeString : QDateTime → String
  splitPath : String → List String
  findRouting : HttpMethod → List String → TRouting
  dispatcherObject : String → Option TActionController
  sessionName : String
  findSession : String → Except Fault TSession
  removeSession : String → Except Fault Unit
  generateId : Except Fault String
  storeSession : TSession → Except Fault Bool
  collectGarbage : Except Fault Unit
  sessionLifeTime : Int
  fileInfo : String → QFileInfo
  readAll : String → Option String
  currentDateTime : Nat
  transportWrite : THttpResponseHeader → Body → Int

/-! ## The context and its monad -/

/-- The members of `TActionContext` used in the file (`transactions` is driven
through events), the local `responseHeader` of `execute` (line 122), and the
trace of calls made so far. -/
structure TActionContext where
  sqlDatabases : QMap QSqlDatabase
  kvsDatabases : QMap TKvsDatabase
  tempFiles : List Nat
  autoRemoveFiles : List String
  accessLogger : TAccessLog
  responseHeader : THttpResponseHeader
  trace : List Event

/-- The constructor (lines 38-46): nothing acquired, nothing logged. -/
def TActionContext.init : TActionContext :=
  ⟨[], [], [], [], default, default, []⟩

namespace TActionContext

/-- The context after one more call on a collaborator. -/
def log (c : TActionContext) (e : Event) : TActionContext :=
  { c with trace := c.trace ++ [e] }

/-- Mirrors `accessLogger.setTimestamp`, `setRequest` and `setRemoteHost`
(lines 130-134). -/
def setLogHead (c : TActionContext) (timestamp : QDateTime) (request remoteHost : String) :
    TActionContext :=
  { c with accessLogger :=
    { c.accessLogger with timestamp := timestamp, request := request, remoteHost := remoteHost } }

/-- Mirrors `accessLogger.setStatusCode`. -/
def setStatusCode (c : TActionContext) (statusCode : Nat) : TActionContext :=
  { c with accessLogger := { c.accessLogger with statusCode := statusCode } }

/-- Mirrors `accessLogger.setResponseBytes(int)`. -/
def setResponseBytes (c : TActionContext) (bytes : Int) : TActionContext :=
  { c with accessLogger := { c.accessLogger with responseBytes := bytes } }

/-- Assignment to the local `responseHeader` of `execute`. -/
def setResponseHeader (c : TActionContext) (header : THttpResponseHeader) : TActionContext :=
  { c with responseHeader := header }

/-- Mirrors `autoRemoveFiles << files` (line 220). -/
def addAutoRemoveFiles (c : TActionContext) (files : List String) : TActionContext :=
  { c with autoRemoveFiles := c.autoRemoveFiles ++ files }

end TActionContext

/-- A member function: it reads and writes the context and either returns or
throws. -/
def Act (α : Type) : Type := TActionContext → Except Fault α × TActionContext

namespace Act

/-- Return normally. -/
def ret {α : Type} (a : α) : Act α := fun c => (.ok a, c)

/-- Sequencing; an exception skips the rest and keeps the state reached. -/
def andThen {α β : Type} (x : Act α) (f : α → Act β) : Act β := fun c =>
  match x c with
  | (.ok a, c') => f a c'
  | (.error e, c') => (.error e, c')

instance : Monad Act where
  pure := ret
  bind := andThen

/-- The effect `throw f`. -/
def raise {α : Type} (f : Fault) : Act α := fun c => (.error f, c)

/-- Record a call on a collaborator. -/
def emit (e : Event) : Act Unit := fun c => (.ok (), c.log e)

/-- A collaborator's answer: its value, or the exception it throws. -/
def answer {α : Type} (r : Except Fault α) : Act α := fun c => (r, c)

/-- Read the context. -/
def current : Act TActionContext := fun c => (.ok c, c)

/-- Update the context. -/
def update (f : TActionContext → TActionContext) : Act Unit := fun c => (.ok (), f c)

end Act

open Act

/-! ## Database handles (lines 55-105, 419-438) -/

/-- Mirrors `TActionContext::beginTransaction` (lines 419-426); the boolean it
returns is not used by any caller in the file. -/
def beginTransaction (database : QSqlDatabase) : Act Unit := fun c =>
  if database.hasTransactions then
    (.ok (), { c with trace := c.trace ++ [.beginTransaction database] })
  else (.ok (), c)

/-- Mirrors `TActionContext::commitTransactions` (lines 429-432). -/
def commitTransactions : Act Unit := emit .commitTransactions

/-- Mirrors `TActionContext::rollbackTransactions` (lines 435-438). -/
def rollbackTransactions : Act Unit := emit .rollbackTransactions

/-- Mirrors `TActionContext::getSqlDatabase` (lines 55-73). `pooled` is what
`TSqlDatabasePool2::instance()->database(id)` does if it is called. -/
def getSqlDatabase (env : Env) (id : Int) (pooled : Except Fault QSqlDatabase) :
    Act QSqlDatabase := fun c =>
  if !env.isSqlDatabaseAvailable then
    let m := c.sqlDatabases.touch 0
    (.ok (m.value 0), { c with sqlDatabases := m })
  else if id < 0 ∨ id ≥ env.sqlDatabaseSettingsCount then
    (.error .runtime, c)
  else
    let m := c.sqlDatabases.touch id
    if !(m.value id).isValid then
      match pooled with
      | .error f => (.error f, { c with sqlDatabases := m })
      | .ok db =>
        (.ok db, (beginTransaction db
          { c with sqlDatabases := m.insert id db, trace := c.trace ++ [.sqlDatabase id db] }).2)
    else (.ok (m.value id), { c with sqlDatabases := m })

/-- Mirrors `TActionContext::releaseSqlDatabases` (lines 76-84). -/
def releaseSqlDatabases : Act Unit := fun c =>
  let c₁ := (rollbackTransactions c).2
  (.ok (), { c₁ with trace := c₁.trace ++ c₁.sqlDatabases.map (fun kv => Event.sqlPool kv.2),
                     sqlDatabases := [] })

/-- Mirrors `TActionContext::getKvsDatabase` (lines 87-96). `pooled` is what
`TKvsDatabasePool2::instance()->database(type)` does if it is called. -/
def getKvsDatabase (type : Int) (pooled : Except Fault TKvsDatabase) :
    Act TKvsDatabase := fun c =>
  let m := c.kvsDatabases.touch type
  if !(m.value type).isValid then
    match pooled with
    | .error f => (.error f, { c with kvsDatabases := m })
    | .ok db =>
      (.ok db, { c with kvsDatabases := m.insert type db,
                        trace := c.trace ++ [.kvsDatabase type db] })
  else (.ok (m.value type), { c with kvsDatabases := m })

/-- Mirrors `TActionContext::releaseKvsDatabases` (lines 99-105). -/
def releaseKvsDatabases : Act Unit := fun c =>
  (.ok (), { c with trace := c.trace ++ c.kvsDatabases.map (fun kv => Event.kvsPool kv.2),
                    kvsDatabases := [] })

/-- Mirrors `TActionContext::createTemporaryFile` (lines 441-446). -/
def createTemporaryFile (file : Nat) : Act Nat := fun c =>
  (.ok file, { c with tempFiles := c.tempFiles ++ [file] })

/-- Mirrors `TActionContext::release` (lines 346-363). -/
def release : Act Unit := fun c =>
  let c₁ := (releaseSqlDatabases c).2
  let c₂ := (releaseKvsDatabases c₁).2
  let c₃ := { c₂ with trace := c₂.trace ++ c₂.tempFiles.map Event.deleteTemporaryFile,
                      tempFiles := [] }
  (.ok (), { c₃ with trace := c₃.trace ++ c₃.autoRemoveFiles.map Event.removeFile,
                     autoRemoveFiles := [] })

/-- One call of controller code on the context. -/
def ContextCall.run (env : Env) : ContextCall → Act Unit
  | .sql id pooled => fun c =>
    ((getSqlDatabase env id pooled c).1.map (fun _ => ()), (getSqlDatabase env id pooled c).2)
  | .kvs type pooled => fun c =>
    ((getKvsDatabase type pooled c).1.map (fun _ => ()), (getKvsDatabase type pooled c).2)

/-- The calls of controller code on the context, one after the other. An
exception thrown by one of them leaves the maps as the call left them; whether
the controller code catches it or lets it through is told by the outcome of
the hook, so the remaining calls are made from that state. -/
def runCalls (env : Env) : List ContextCall → TActionContext → TActionContext
  | [], c => c
  | call :: rest, c => runCalls env rest (call.run env c).2

/-- Run a hook: its calls on the context, then its own outcome. -/
def Hook.run {α : Type} (env : Env) (h : Hook α) : Act α := fun c =>
  (h.result, runCalls env h.calls c)

/-! ## Writing a response (lines 366-412) -/

/-- The conversion of a `qint64` to `int` in `int bytes = writeResponse(...)`
(lines 262, 291, 295, 299 and 313): the value modulo 2^32, read as a signed
32-bit integer. -/
def narrowToInt (n : Int) : Int := (n + 2147483648) % 4294967296 - 2147483648

/-- The pure virtual `writeResponse(header, body)`: the transport sends the
header and the body and reports the number of bytes written. -/
def transportWriteResponse (env : Env) (header : THttpResponseHeader) (body : Body) :
    Act Int := fun c =>
  (.ok (env.transportWrite header body), c.log (.writeResponse header body))

/-- Lines 406-408: content length, server name and date are stamped into the
header. -/
def stampHeader (env : Env) (header : THttpResponseHeader) (length : Nat) :
    THttpResponseHeader :=
  ((header.setContentLength length).setRawHeader "Server" "TreeFrog server").setCurrentDate
    env.currentDateTime

/-- Mirrors `writeResponse(header, body, length)` (lines 402-412). The header
is a reference parameter: the updated header is returned with the byte count. -/
def writeResponse (env : Env) (header : THttpResponseHeader) (body : Body) (length : Nat) :
    Act (Int × THttpResponseHeader) :=
  andThen (transportWriteResponse env (stampHeader env header length) body)
    (fun bytes => ret (bytes, stampHeader env header length))

/-- Lines 394-396: status line and content type are set. -/
def contentHeader (env : Env) (statusCode : Nat) (header : THttpResponseHeader)
    (contentType : String) : THttpResponseHeader :=
  let header₁ := header.setStatusLine statusCode (env.getResponseReasonPhrase statusCode)
  if !contentType.isEmpty then header₁.setContentType contentType else header₁

/-- Mirrors `writeResponse(statusCode, header, contentType, body, length)`
(lines 390-399). -/
def writeResponseContent (env : Env) (statusCode : Nat) (header : THttpResponseHeader)
    (contentType : String) (body : Body) (length : Nat) :
    Act (Int × THttpResponseHeader) :=
  writeResponse env (contentHeader env statusCode header contentType) body length

/-- The body that `writeResponse(statusCode, header)` builds (lines 369-383). -/
def statusBody (env : Env) (statusCode : Nat) : String :=
  let body :=
    if statusCode ≥ 400 then
      match env.readAll (env.publicPath ++ toString statusCode ++ ".html") with
      | some content => content
      | none => ""
    else ""
  if body.isEmpty then
    "<html><body>" ++ env.getResponseReasonPhrase statusCode ++ " (" ++ toString statusCode
      ++ ")</body></html>"
  else body

/-- Mirrors `writeResponse(statusCode, header)` (lines 366-387). -/
def writeResponseStatus (env : Env) (statusCode : Nat) (header : THttpResponseHeader) :
    Act (Int × THttpResponseHeader) :=
  let body := statusBody env statusCode
  writeResponseContent env statusCode header "text/html" (.buffer body) body.length

/-! ## Routing (lines 143-167) -/

/-- `QString::toLatin1()`: a character outside Latin-1 becomes a question mark. -/
def toLatin1 (s : String) : String :=
  String.mk (s.data.map (fun ch => if ch.toNat < 256 then ch else '?'))

/-- `QByteArray::toLower()` on one byte, read as Latin-1. -/
def toLowerByte (ch : Char) : Char :=
  if (65 ≤ ch.toNat ∧ ch.toNat ≤ 90) ∨ (192 ≤ ch.toNat ∧ ch.toNat ≤ 222 ∧ ch.toNat ≠ 215) then
    Char.ofNat (ch.toNat + 32)
  else ch

/-- `QByteArray::toLower()`. -/
def toLower (s : String) : String := String.mk (s.data.map toLowerByte)

/-- Mirrors the static `directViewRenderMode()` (lines 108-115): the setting
`DirectViewRenderMode`, read once per process. -/
def directViewRenderMode (env : Env) : Bool := env.directViewRenderMode

/-- The routing decision of `execute` (lines 145-167): the route resolver's
answer and, when it is empty, the default URL routing. -/
def routing (env : Env) (method : HttpMethod) (components : List String) : TRouting :=
  let rt := env.findRouting method components
  if rt.isEmpty then
    if directViewRenderMode env then
      rt.setRouting "directcontroller" "show" components
    else
      let c := toLower (toLatin1 (components.getD 0 ""))
      if !c.isEmpty then
        if c != "application" then
          let action := toLatin1 (components.getD 1 "index")
          rt.setRouting (c ++ "controller") action (components.drop 2)
        else rt
      else rt
  else rt

/-! ## The controller lifecycle (lines 173-267) -/

/-- Lines 176-187: the session handed to the controller. When sessions are off
the controller keeps its default-constructed session. -/
def loadSession (env : Env) (request : THttpRequest) (ctl : TActionController) :
    Act TSession := do
  if ctl.sessionEnabled then
    let sessionId := request.cookie env.sessionName
    let session ←
      if !sessionId.isEmpty then do
        emit (.findSession sessionId)
        answer (env.findSession sessionId)
      else pure default
    emit (.setSession session)
    emit .exportAllFlashVariants
    pure session
  else pure default

/-- Lines 189-198: the authenticity token check. -/
def verifyAuthenticityToken (env : Env) (request : THttpRequest) (method : HttpMethod)
    (rt : TRouting) (ctl : TActionController) : Act Unit := do
  if env.enableCsrfProtectionModule && ctl.csrfProtectionEnabled
      && !ctl.exceptionActionsOfCsrfProtection.contains rt.action then
    if method = .Post ∨ method = .Put ∨ method = .Delete then
      emit .verifyRequest
      let verified ← answer (ctl.verifyRequest request)
      if !verified then
        raise .security

/-- Lines 200-209: session id regeneration and CSRF data. -/
def prepareSession (env : Env) (ctl : TActionController) (session : TSession) :
    Act TSession := do
  if ctl.sessionEnabled then
    let session ←
      if session.id.isEmpty || env.sessionAutoIdRegeneration then do
        emit (.sessionRemove session.sessionId)
        answer (env.removeSession session.sessionId)
        emit .generateId
        let newId ← answer env.generateId
        pure { session with sessionId := newId }
      else pure session
    emit .setCsrfProtectionInto
    pure session
  else pure session

/-- Lines 233-245: the session store and the session cookie. -/
def storeSession (env : Env) (ctl : TActionController) (session : TSession) : Act Unit := do
  if ctl.sessionEnabled then
    emit (.sessionStore session)
    let stored ← answer (env.storeSession session)
    if stored then
      let expire : QDateTime :=
        if env.sessionLifeTime > 0 then some (env.currentDateTime + env.sessionLifeTime.toNat)
        else none
      emit (.addCookie env.sessionName session.id expire env.sessionCookiePath)

/-- Lines 215-247: filters, the action, transaction resolution, session store. -/
def dispatch (env : Env) (rt : TRouting) (ctl : TActionController) (session : TSession) :
    Act Unit := do
  emit .preFilter
  if (← ctl.preFilter.run env) then
    emit (.invoke rt.action rt.params)
    let dispatched ← (ctl.invoke rt.action rt.params).run env
    if dispatched then
      update (·.addAutoRemoveFiles ctl.autoRemoveFiles)
      emit .postFilter
      ctl.postFilter.run env
      if ctl.rollbackRequested then
        rollbackTransactions
      else
        commitTransactions
      storeSession env ctl session

/-- `QByteArray::contains(needle)`: the needle occurs somewhere in the bytes. -/
def containsBytes (needle : List Char) : List Char → Bool
  | [] => needle.isEmpty
  | ch :: rest => needle.isPrefixOf (ch :: rest) || containsBytes needle rest

/-- Lines 249-255: the content type of the controller's response, with the
charset added to a textual type that names none. -/
def responseContentType (env : Env) (ctl : TActionController) : String :=
  let ctype := toLower ctl.contentType
  if ctype.startsWith "text" && !containsBytes "charset".data ctype.data then
    ctype ++ "; charset=" ++ env.codecForHttpOutput
  else ctl.contentType

/-- Lines 249-267: status, response and session garbage collection. -/
def respond (env : Env) (ctl : TActionController) : Act Unit := do
  let header := (default : THttpResponseHeader).setContentType (responseContentType env ctl)
  let status := if !ctl.isBodyNull then ctl.statusCode else 500
  update (·.setStatusCode status)
  let header := header.setStatusLine status (env.getResponseReasonPhrase status)
  let (bytes, _) ← writeResponse env header .controllerBody ctl.bodyLength
  update (·.setResponseBytes (narrowToInt bytes))
  emit .collectGarbage
  answer env.collectGarbage

/-- Lines 173-212: everything that precedes the filters. -/
def prepare (env : Env) (request : THttpRequest) (method : HttpMethod) (rt : TRouting)
    (ctl : TActionController) : Act TSession := do
  emit (.setActionName rt.action)
  let session ← loadSession env request ctl
  verifyAuthenticityToken env request method rt ctl
  let session ← prepareSession env ctl session
  emit (.transactionsSetEnabled ctl.transactionEnabled)
  pure session

/-- Lines 173-267: what `execute` does with the controller it obtained. -/
def runController (env : Env) (request : THttpRequest) (method : HttpMethod) (rt : TRouting)
    (ctl : TActionController) : Act Unit := do
  let session ← prepare env request method rt ctl
  dispatch env rt ctl session
  respond env ctl

/-! ## No controller (lines 269-309) -/

/-- Lines 279-285: whether the file is sent, given the `If-Modified-Since`
header and the file's modification time. -/
def sendfile (env : Env) (ifModifiedSince : String) (lastModified : QDateTime) : Bool :=
  if !ifModifiedSince.isEmpty then
    let dt := env.fromHttpDateTimeString ifModifiedSince
    !dt.isSome || dt != lastModified
  else true

/-- Lines 269-309: the static-file fallback. -/
def serveStatic (env : Env) (request : THttpRequest) (method : HttpMethod) (path : String) :
    Act Unit := do
  update (·.setStatusCode 400)
  if method = .Get then
    let path := path.drop 1
    let reqPath := env.publicPath ++ path
    let fi := env.fileInfo reqPath
    let responseHeader := (← current).responseHeader
    let (bytes, responseHeader) ←
      if fi.isFile && fi.isReadable then
        if sendfile env (request.rawHeader "If-Modified-Since") fi.lastModified then
          let responseHeader := responseHeader.setRawHeader "Last-Modified"
            (env.toHttpDateTimeString fi.lastModified)
          let type := env.internetMediaType fi.suffix
          writeResponseContent env 200 responseHeader type (.file reqPath) fi.size
        else
          writeResponseStatus env 304 responseHeader
      else
        writeResponseStatus env 404 responseHeader
    update (·.setResponseHeader responseHeader)
    update (·.setResponseBytes (narrowToInt bytes))
    update (fun c => c.setStatusCode c.responseHeader.statusCode)

/-! ## execute (lines 118-343) -/

/-- Line 141: the request path without its query string, URL-decoded. -/
def decodedPath (env : Env) (request : THttpRequest) : String :=
  env.fromUrlEncoding (String.mk (request.path.data.takeWhile (fun ch => ch != '?')))

/-- Lines 144-167: the routing decision for the request. -/
def requestRouting (env : Env) (request : THttpRequest) : TRouting :=
  routing env request.method (env.splitPath (decodedPath env request))

/-- The body of the `try` block (lines 126-309). -/
def executeTry (env : Env) (request : THttpRequest) : Act Unit := do
  let firstLine := request.headerMethod ++ " " ++ request.path ++ " HTTP/"
    ++ toString request.majorVersion ++ "." ++ toString request.minorVersion
  update (·.setLogHead (some env.currentDateTime) firstLine
    (if env.listenPort > 0 then request.clientAddress else "(unix)"))
  let method := request.method
  let path := decodedPath env request
  let rt := requestRouting env request
  emit (.createController rt.controller)
  match env.dispatcherObject rt.controller with
  | some currController => runController env request method rt currController
  | none => serveStatic env request method path

/-- The handlers of `execute` (lines 311-340). -/
def executeCatch (env : Env) : Fault → Act Unit
  | .clientError statusCode => do
    let (bytes, responseHeader) ← writeResponseStatus env statusCode (← current).responseHeader
    update (·.setResponseHeader responseHeader)
    update (·.setResponseBytes (narrowToInt bytes))
    update (·.setStatusCode statusCode)
  | _ => emit .closeHttpSocket

/-- The `try` statement as a whole: the state in which it is left, whether its
body ran to the end or a handler did. -/
def recover (env : Env) : Except Fault Unit × TActionContext → TActionContext
  | (.ok _, c) => c
  | (.error e, c) => (executeCatch env e c).2

/-- Mirrors `TActionContext::execute` (lines 118-343). -/
def execute (env : Env) (request : THttpRequest) : Act Unit := fun c =>
  let c₁ := (c.setResponseHeader default).log .accessLogOpen
  let c₂ := recover env (executeTry env request c₁)
  (.ok (), c₂.log (.accessLogWrite c₂.accessLogger))

/-- The destructor (lines 49-52). -/
def destroy : Act Unit := release

/-- One request: a fresh context runs `execute` and is destroyed. -/
def handleRequest (env : Env) (request : THttpRequest) : TActionContext :=
  (destroy (execute env request TActionContext.init).2).2

/-- The calls made by one run of `execute` that starts in the context `c`
(whatever `c` holds; what was recorded before the run is left out). -/
def executeEvents (env : Env) (request : THttpRequest) (c : TActionContext) : List Event :=
  (execute env request { c with trace := [] }).2.trace

/-! ## Reading a trace -/

/-- The calls made while the session is loaded, the request is verified and the
transaction coordinator is configured (lines 173-212), and the calls made by
`getSqlDatabase` and `getKvsDatabase`. None of them is a filter, an action, a
transaction resolution, a session store, a response or a release. -/
def Event.isQuiet : Event → Bool
  | .setActionName _ => true
  | .findSession _ => true
  | .setSession _ => true
  | .exportAllFlashVariants => true
  | .verifyRequest => true
  | .sessionRemove _ => true
  | .generateId => true
  | .setCsrfProtectionInto => true
  | .transactionsSetEnabled _ => true
  | .beginTransaction _ => true
  | .sqlDatabase _ _ => true
  | .kvsDatabase _ _ => true
  | _ => false

/-- The trace without its quiet calls. -/
def milestones (tr : List Event) : List Event := tr.filter (fun e => !e.isQuiet)

/-- A call of `commitTransactions` or `rollbackTransactions`. -/
def Event.isResolution : Event → Bool
  | .commitTransactions => true
  | .rollbackTransactions => true
  | _ => false

/-- A call of `TSessionManager::store`. -/
def Event.isStore : Event → Bool
  | .sessionStore _ => true
  | _ => false

/-- A call of the transport-level `writeResponse(header, body)`. -/
def Event.isWrite : Event → Bool
  | .writeResponse _ _ => true
  | _ => false

/-- A call of `accessLogger.write()`. -/
def Event.isLogWrite : Event → Bool
  | .accessLogWrite _ => true
  | _ => false

/-- A call of `pool(...)` on one of the two database pools. -/
def Event.isPool : Event → Bool
  | .sqlPool _ => true
  | .kvsPool _ => true
  | _ => false

/-- Every `p`-call of the trace comes before every `q`-call: no `p` is found
at or after a `q`. -/
def precedes (p q : Event → Bool) : List Event → Bool
  | [] => true
  | e :: rest => (!q e || (e :: rest).all (fun e' => !p e')) && precedes p q rest

/-- The SQL connections obtained from `TSqlDatabasePool2::database`. -/
def acquiredSql (tr : List Event) : List Nat :=
  tr.filterMap (fun e => match e with
    | .sqlDatabase _ db => db.connection
    | _ => none)

/-- The SQL connections handed to `TSqlDatabasePool2::pool`. -/
def releasedSql (tr : List Event) : List Nat :=
  tr.filterMap (fun e => match e with
    | .sqlPool db => db.connection
    | _ => none)

/-- The KVS connections obtained from `TKvsDatabasePool2::database`. -/
def acquiredKvs (tr : List Event) : List Nat :=
  tr.filterMap (fun e => match e with
    | .kvsDatabase _ db => db.connection
    | _ => none)

/-- The KVS connections handed to `TKvsDatabasePool2::pool`. -/
def releasedKvs (tr : List Event) : List Nat :=
  tr.filterMap (fun e => match e with
    | .kvsPool db => db.connection
    | _ => none)

/-! ## Summaries

The definitions below are the vocabulary of the proofs: what a step leaves
alone, and what a phase of `execute` adds to the trace once the quiet calls
are left out. The theorems `dispatch_summary` and `milestones_controller`
relate them to the functions above. -/

/-- What a step leaves alone: the trace up to quiet calls, the access log,
the response header and the file lists. -/
structure Quiet (c c' : TActionContext) : Prop where
  trace : milestones c'.trace = milestones c.trace
  logger : c'.accessLogger = c.accessLogger
  header : c'.responseHeader = c.responseHeader
  files : c'.autoRemoveFiles = c.autoRemoveFiles
  temp : c'.tempFiles = c.tempFiles

/-- A step that is quiet from every state. -/
def Act.IsQuiet {α : Type} (x : Act α) : Prop := ∀ c, Quiet c (x c).2

/-- A step whose outcome does not depend on the state. -/
def Act.IsSteady {α : Type} (x : Act α) : Prop := ∀ c c', (x c).1 = (x c').1

/-- The state in which `execute` asks the dispatcher for a controller: the
trace is restarted, the access log is opened and headed (lines 122-134) and
the dispatcher is constructed (line 170). -/
def atDispatch (env : Env) (request : THttpRequest) (c : TActionContext) : TActionContext :=
  ((((({ c with trace := [] } : TActionContext).setResponseHeader default).log
    Event.accessLogOpen).setLogHead (some env.currentDateTime)
      (request.headerMethod ++ " " ++ request.path ++ " HTTP/"
        ++ toString request.majorVersion ++ "." ++ toString request.minorVersion)
      (if env.listenPort > 0 then request.clientAddress else "(unix)")).log
    (Event.createController (requestRouting env request).controller))

/-- The outcome of lines 173-212 for the request. -/
def prepareOutcome (env : Env) (request : THttpRequest) (ctl : TActionController) :
    Except Fault TSession :=
  (prepare env request request.method (requestRouting env request) ctl TActionContext.init).1

/-- The outcome of `dispatch` and the calls it makes, quiet ones left out. -/
def dispatchSummary (env : Env) (rt : TRouting) (ctl : TActionController) (s : TSession) :
    Except Fault Unit × List Event :=
  match ctl.preFilter.result with
  | .error f => (.error f, [.preFilter])
  | .ok false => (.ok (), [.preFilter])
  | .ok true =>
    match (ctl.invoke rt.action rt.params).result with
    | .error f => (.error f, [.preFilter, .invoke rt.action rt.params])
    | .ok false => (.ok (), [.preFilter, .invoke rt.action rt.params])
    | .ok true =>
      match ctl.postFilter.result with
      | .error f => (.error f, [.preFilter, .invoke rt.action rt.params, .postFilter])
      | .ok _ =>
        if ctl.sessionEnabled then
          match env.storeSession s with
          | .error f => (.error f, [.preFilter, .invoke rt.action rt.params, .postFilter,
              if ctl.rollbackRequested then .rollbackTransactions else .commitTransactions,
              .sessionStore s])
          | .ok false => (.ok (), [.preFilter, .invoke rt.action rt.params, .postFilter,
              if ctl.rollbackRequested then .rollbackTransactions else .commitTransactions,
              .sessionStore s])
          | .ok true => (.ok (), [.preFilter, .invoke rt.action rt.params, .postFilter,
              if ctl.rollbackRequested then .rollbackTransactions else .commitTransactions,
              .sessionStore s,
              .addCookie env.sessionName s.id
                (if env.sessionLifeTime > 0 then
                  some (env.currentDateTime + env.sessionLifeTime.toNat) else none)
                env.sessionCookiePath])
        else (.ok (), [.preFilter, .invoke rt.action rt.params, .postFilter,
              if ctl.rollbackRequested then .rollbackTransactions else .commitTransactions])

/-- The calls made by the handler that catches `f` (lines 311-340). -/
def catchTrail (env : Env) : Fault → List Event
  | .clientError statusCode =>
    [.writeResponse
      (stampHeader env (contentHeader env statusCode default "text/html")
        (statusBody env statusCode).length)
      (.buffer (statusBody env statusCode))]
  | _ => [.closeHttpSocket]

/-- The calls made by `respond`, up to and including `collectGarbage()`. -/
def respondTrail (env : Env) (ctl : TActionController) : List Event :=
  [.writeResponse
    (stampHeader env
      (((default : THttpResponseHeader).setContentType (responseContentType env ctl)).setStatusLine
        (if !ctl.isBodyNull then ctl.statusCode else 500)
        (env.getResponseReasonPhrase (if !ctl.isBodyNull then ctl.statusCode else 500)))
      ctl.bodyLength)
    .controllerBody,
   .collectGarbage]

/-- The calls made after `collectGarbage()` (line 267) was called: those of
the handler, if it throws. -/
def gcTrail (env : Env) : List Event :=
  match env.collectGarbage with
  | .error f => catchTrail env f
  | .ok _ => []

/-- The calls made between the construction of the dispatcher and the write of
the access log when the dispatcher returned `ctl`, quiet ones left out. -/
def controllerTrail (env : Env) (request : THttpRequest) (ctl : TActionController) : List Event :=
  match prepareOutcome env request ctl with
  | .error f => catchTrail env f
  | .ok s =>
    (dispatchSummary env (requestRouting env request) ctl s).2 ++
      match (dispatchSummary env (requestRouting env request) ctl s).1 with
      | .error f => catchTrail env f
      | .ok _ => respondTrail env ctl ++ gcTrail env

/-! ## Pooled connections -/

/-- The connections held by the handles of a map. -/
def connections {α : Type} (f : α → Option Nat) (m : QMap α) : List Nat :=
  m.filterMap (fun kv => f kv.2)

/-- A call that takes a handle from a pool or hands one back. -/
def Event.isPoolTraffic : Event → Bool
  | .sqlDatabase _ _ => true
  | .kvsDatabase _ _ => true
  | .sqlPool _ => true
  | .kvsPool _ => true
  | _ => false

/-- Between two releases: the connections in the maps are the connections
acquired so far, and nothing has been handed back. -/
structure DbInv (c : TActionContext) : Prop where
  sql : (connections QSqlDatabase.connection c.sqlDatabases).Perm (acquiredSql c.trace)
  kvs : (connections TKvsDatabase.connection c.kvsDatabases).Perm (acquiredKvs c.trace)
  pool : ∀ e ∈ c.trace, e.isPool = false

/-- A step that keeps a property of the state, whatever its outcome. -/
def Act.Keeps {α : Type} (P : TActionContext → Prop) (x : Act α) : Prop :=
  ∀ c, P c → P (x c).2

/-- The calls made by `release` from the state `c`, after its
`rollbackTransactions()`. -/
def teardownCalls (c : TActionContext) : List Event :=
  c.sqlDatabases.map (fun kv => Event.sqlPool kv.2) ++
    (c.kvsDatabases.map (fun kv => Event.kvsPool kv.2) ++
      (c.tempFiles.map Event.deleteTemporaryFile ++ c.autoRemoveFiles.map Event.removeFile))

/-- What the claim on pooled connections asks of the trace and the maps once
the context has been released. -/
structure ReleasedOnce (c : TActionContext) : Prop where
  sql : (releasedSql c.trace).Perm (acquiredSql c.trace)
  kvs : (releasedKvs c.trace).Perm (acquiredKvs c.trace)
  sqlEmpty : c.sqlDatabases = []
  kvsEmpty : c.kvsDatabases = []
  again : (release c).2.trace = c.trace ++ [.rollbackTransactions]

/-! ## Examples -/

/-- A controller of the examples: sessions and CSRF protection on, a request
without a valid token, an action that uses one SQL and one KVS connection. -/
def usersController : TActionController :=
  { sessionEnabled := true
    csrfProtectionEnabled := true
    exceptionActionsOfCsrfProtection := []
    transactionEnabled := true
    verifyRequest := fun _ => .ok false
    preFilter := ⟨[], .ok true⟩
    invoke := fun _ _ => ⟨[.sql 0 (.ok ⟨some 7, true⟩), .kvs 1 (.ok ⟨some 9⟩)], .ok true⟩
    postFilter := ⟨[], .ok ()⟩
    rollbackRequested := false
    autoRemoveFiles := []
    contentType := "text/html"
    isBodyNull := false
    statusCode := 200
    bodyLength := 5 }

/-- A controller of the examples whose post-filter throws a
`RuntimeException`. -/
def failingController : TActionController :=
  { usersController with postFilter := ⟨[], .error .runtime⟩ }

/-- The environment of the examples: no explicit route, direct view rendering
off, two controllers, one public file `index.html` last modified at 1000. -/
def exampleEnv : Env :=
  { isSqlDatabaseAvailable := true
    sqlDatabaseSettingsCount := 1
    directViewRenderMode := false
    enableCsrfProtectionModule := true
    sessionAutoIdRegeneration := false
    sessionCookiePath := "/"
    listenPort := 8800
    publicPath := "/public/"
    codecForHttpOutput := "UTF-8"
    internetMediaType := fun _ => "text/html"
    fromUrlEncoding := fun p => p
    getResponseReasonPhrase := fun n =>
      if n = 200 then "OK" else if n = 304 then "Not Modified" else "Not Found"
    fromHttpDateTimeString := fun s =>
      if s = "t1000" then some 1000 else if s = "t999" then some 999 else none
    toHttpDateTimeString := fun t => if t = some 1000 then "t1000" else ""
    splitPath := fun p =>
      if p = "/users/show/5" then ["users", "show", "5"]
      else if p = "/users" then ["users"]
      else if p = "/Users" then ["Users"]
      else if p = "/failing/run" then ["failing", "run"]
      else if p = "/application/index" then ["application", "index"]
      else if p = "/index.html" then ["index.html"]
      else []
    findRouting := fun _ _ => default
    dispatcherObject := fun name =>
      if name = "userscontroller" then some usersController
      else if name = "failingcontroller" then some failingController
      else none
    sessionName := "TFSESSION"
    findSession := fun id => .ok ⟨id⟩
    removeSession := fun _ => .ok ()
    generateId := .ok "newid"
    storeSession := fun _ => .ok true
    collectGarbage := .ok ()
    sessionLifeTime := 300
    fileInfo := fun p =>
      if p = "/public/index.html" then ⟨true, true, some 1000, "html", 12⟩
      else ⟨false, false, none, "", 0⟩
    readAll := fun _ => none
    currentDateTime := 5000
    transportWrite := fun header _ => header.contentLength }

/-- The environment of the examples with a session manager whose garbage
collection throws a `ClientErrorException` with status 404. -/
def brokenGcEnv : Env :=
  { exampleEnv with collectGarbage := .error (.clientError 404) }

/-- The environment of the examples with one explicit route, for the path
`/application/index`. -/
def routedEnv : Env :=
  { exampleEnv with
    findRouting := fun _ components =>
      if components = ["application", "index"] then ⟨"userscontroller", "index", []⟩
      else default }

/-- A request of the examples. -/
def exampleRequest (method : HttpMethod) (path ifModifiedSince : String) : THttpRequest :=
  { method := method
    headerMethod := if method = .Post then "POST" else "GET"
    path := path
    majorVersion := 1
    minorVersion := 1
    rawHeader := fun key => if key = "If-Modified-Since" then ifModifiedSince else ""
    cookie := fun _ => ""
    clientAddress := "127.0.0.1" }

/-! ## Lemmas: the state and the monad -/

namespace TActionContext
@[simp] theorem log_sqlDatabases (c : TActionContext) (e : Event) :
    (c.log e).sqlDatabases = c.sqlDatabases := rfl
@[simp] theorem log_kvsDatabases (c : TActionContext) (e : Event) :
    (c.log e).kvsDatabases = c.kvsDatabases := rfl
@[simp] theorem log_tempFiles (c : TActionContext) (e : Event) :
    (c.log e).tempFiles = c.tempFiles := rfl
@[simp] theorem log_autoRemoveFiles (c : TActionContext) (e : Event) :
    (c.log e).autoRemoveFiles = c.autoRemoveFiles := rfl
@[simp] theorem log_accessLogger (c : TActionContext) (e : Event) :
    (c.log e).accessLogger = c.accessLogger := rfl
@[simp] theorem log_responseHeader (c : TActionContext) (e : Event) :
    (c.log e).responseHeader = c.responseHeader := rfl
@[simp] theorem log_trace (c : TActionContext) (e : Event) :
    (c.log e).trace = c.trace ++ [e] := rfl
@[simp] theorem setLogHead_sqlDatabases (c : TActionContext) (t : QDateTime) (r h : String) :
    (c.setLogHead t r h).sqlDatabases = c.sqlDatabases := rfl
@[simp] theorem setLogHead_kvsDatabases (c : TActionContext) (t : QDateTime) (r h : String) :
    (c.setLogHead t r h).kvsDatabases = c.kvsDatabases := rfl
@[simp] theorem setLogHead_tempFiles (c : TActionContext) (t : QDateTime) (r h : String) :
    (c.setLogHead t r h).tempFiles = c.tempFiles := rfl
@[simp] theorem setLogHead_autoRemoveFiles (c : TActionContext) (t : QDateTime) (r h : String) :
    (c.setLogHead t r h).autoRemoveFiles = c.autoRemoveFiles := rfl
@[simp] theorem setLogHead_responseHeader (c : TActionContext) (t : QDateTime) (r h : String) :
    (c.setLogHead t r h).responseHeader = c.responseHeader := rfl
@[simp] theorem setLogHead_trace (c : TActionContext) (t : QDateTime) (r h : String) :
    (c.setLogHead t r h).trace = c.trace := rfl
@[simp] theorem setStatusCode_sqlDatabases (c : TActionContext) (n : Nat) :
    (c.setStatusCode n).sqlDatabases = c.sqlDatabases := rfl
@[simp] theorem setStatusCode_kvsDatabases (c : TActionContext) (n : Nat) :
    (c.setStatusCode n).kvsDatabases = c.kvsDatabases := rfl
@[simp] theorem setStatusCode_tempFiles (c : TActionContext) (n : Nat) :
    (c.setStatusCode n).tempFiles = c.tempFiles := rfl
@[simp] theorem setStatusCode_autoRemoveFiles (c : TActionContext) (n : Nat) :
    (c.setStatusCode n).autoRemoveFiles = c.autoRemoveFiles := rfl
@[simp] theorem setStatusCode_responseHeader (c : TActionContext) (n : Nat) :
    (c.setStatusCode n).responseHeader = c.responseHeader := rfl
@[simp] theorem setStatusCode_trace (c : TActionContext) (n : Nat) :
    (c.setStatusCode n).trace = c.trace := rfl
@[simp] theorem setResponseBytes_sqlDatabases (c : TActionContext) (n : Int) :
    (c.setResponseBytes n).sqlDatabases = c.sqlDatabases := rfl
@[simp] theorem setResponseBytes_kvsDatabases (c : TActionContext) (n : Int) :
    (c.setResponseBytes n).kvsDatabases = c.kvsDatabases := rfl
@[simp] theorem setResponseBytes_tempFiles (c : TActionContext) (n : Int) :
    (c.setResponseBytes n).tempFiles = c.tempFiles := rfl
@[simp] theorem setResponseBytes_autoRemoveFiles (c : TActionContext) (n : Int) :
    (c.setResponseBytes n).autoRemoveFiles = c.autoRemoveFiles := rfl
@[simp] theorem setResponseBytes_responseHeader (c : TActionContext) (n : Int) :
    (c.setResponseBytes n).responseHeader = c.responseHeader := rfl
@[simp] theorem setResponseBytes_trace (c : TActionContext) (n : Int) :
    (c.setResponseBytes n).trace = c.trace := rfl
@[simp] theorem setResponseHeader_sqlDatabases (c : TActionContext) (h : THttpResponseHeader) :
    (c.setResponseHeader h).sqlDatabases = c.sqlDatabases := rfl
@[simp] theorem setResponseHeader_kvsDatabases (c : TActionContext) (h : THttpResponseHeader) :
    (c.setResponseHeader h).kvsDatabases = c.kvsDatabases := rfl
@[simp] theorem setResponseHeader_tempFiles (c : TActionContext) (h : THttpResponseHeader) :
    (c.setResponseHeader h).tempFiles = c.tempFiles := rfl
@[simp] theorem setResponseHeader_autoRemoveFiles (c : TActionContext) (h : THttpResponseHeader) :
    (c.setResponseHeader h).autoRemoveFiles = c.autoRemoveFiles := rfl
@[simp] theorem setResponseHeader_accessLogger (c : TActionContext) (h : THttpResponseHeader) :
    (c.setResponseHeader h).accessLogger = c.accessLogger := rfl
@[simp] theorem setResponseHeader_responseHeader (c : TActionContext) (h : THttpResponseHeader) :
    (c.setResponseHeader h).responseHeader = h := rfl
@[simp] theorem setResponseHeader_trace (c : TActionContext) (h : THttpResponseHeader) :
    (c.setResponseHeader h).trace = c.trace := rfl
@[simp] theorem addAutoRemoveFiles_sqlDatabases (c : TActionContext) (l : List String) :
    (c.addAutoRemoveFiles l).sqlDatabases = c.sqlDatabases := rfl
@[simp] theorem addAutoRemoveFiles_kvsDatabases (c : TActionContext) (l : List String) :
    (c.addAutoRemoveFiles l).kvsDatabases = c.kvsDatabases := rfl
@[simp] theorem addAutoRemoveFiles_tempFiles (c : TActionContext) (l : List String) :
    (c.addAutoRemoveFiles l).tempFiles = c.tempFiles := rfl
@[simp] theorem addAutoRemoveFiles_autoRemoveFiles (c : TActionContext) (l : List String) :
    (c.addAutoRemoveFiles l).autoRemoveFiles = c.autoRemoveFiles ++ l := rfl
@[simp] theorem addAutoRemoveFiles_accessLogger (c : TActionContext) (l : List String) :
    (c.addAutoRemoveFiles l).accessLogger = c.accessLogger := rfl
@[simp] theorem addAutoRemoveFiles_responseHeader (c : TActionContext) (l : List String) :
    (c.addAutoRemoveFiles l).responseHeader = c.responseHeader := rfl
@[simp] theorem addAutoRemoveFiles_trace (c : TActionContext) (l : List String) :
    (c.addAutoRemoveFiles l).trace = c.trace := rfl
@[simp] theorem setLogHead_timestamp (c : TActionContext) (t : QDateTime) (r h : String) :
    (c.setLogHead t r h).accessLogger.timestamp = t := rfl
@[simp] theorem setStatusCode_timestamp (c : TActionContext) (n : Nat) :
    (c.setStatusCode n).accessLogger.timestamp = c.accessLogger.timestamp := rfl
@[simp] theorem setResponseBytes_timestamp (c : TActionContext) (n : Int) :
    (c.setResponseBytes n).accessLogger.timestamp = c.accessLogger.timestamp := rfl
@[simp] theorem setLogHead_request (c : TActionContext) (t : QDateTime) (r h : String) :
    (c.setLogHead t r h).accessLogger.request = r := rfl
@[simp] theorem setStatusCode_request (c : TActionContext) (n : Nat) :
    (c.setStatusCode n).accessLogger.request = c.accessLogger.request := rfl
@[simp] theorem setResponseBytes_request (c : TActionContext) (n : Int) :
    (c.setResponseBytes n).accessLogger.request = c.accessLogger.request := rfl
@[simp] theorem setLogHead_remoteHost (c : TActionContext) (t : QDateTime) (r h : String) :
    (c.setLogHead t r h).accessLogger.remoteHost = h := rfl
@[simp] theorem setStatusCode_remoteHost (c : TActionContext) (n : Nat) :
    (c.setStatusCode n).accessLogger.remoteHost = c.accessLogger.remoteHost := rfl
@[simp] theorem setResponseBytes_remoteHost (c : TActionContext) (n : Int) :
    (c.setResponseBytes n).accessLogger.remoteHost = c.accessLogger.remoteHost := rfl
@[simp] theorem setLogHead_statusCode (c : TActionContext) (t : QDateTime) (r h : String) :
    (c.setLogHead t r h).accessLogger.statusCode = c.accessLogger.statusCode := rfl
@[simp] theorem setStatusCode_statusCode (c : TActionContext) (n : Nat) :
    (c.setStatusCode n).accessLogger.statusCode = n := rfl
@[simp] theorem setResponseBytes_statusCode (c : TActionContext) (n : Int) :
    (c.setResponseBytes n).accessLogger.statusCode = c.accessLogger.statusCode := rfl
@[simp] theorem setLogHead_responseBytes (c : TActionContext) (t : QDateTime) (r h : String) :
    (c.setLogHead t r h).accessLogger.responseBytes = c.accessLogger.responseBytes := rfl
@[simp] theorem setStatusCode_responseBytes (c : TActionContext) (n : Nat) :
    (c.setStatusCode n).accessLogger.responseBytes = c.accessLogger.responseBytes := rfl
@[simp] theorem setResponseBytes_responseBytes (c : TActionContext) (n : Int) :
    (c.setResponseBytes n).accessLogger.responseBytes = n := rfl

end TActionContext

theorem bind_def {α β : Type} (x : Act α) (f : α → Act β) : x >>= f = andThen x f := rfl

theorem pure_def {α : Type} (a : α) : (pure a : Act α) = ret a := rfl

@[simp] theorem ret_apply {α : Type} (a : α) (c : TActionContext) : ret a c = (.ok a, c) := rfl

@[simp] theorem emit_apply (e : Event) (c : TActionContext) : emit e c = (.ok (), c.log e) := rfl

@[simp] theorem raise_apply {α : Type} (f : Fault) (c : TActionContext) :
    (raise f : Act α) c = (.error f, c) := rfl

@[simp] theorem andThen_ret {α β : Type} (a : α) (f : α → Act β) (c : TActionContext) :
    andThen (ret a) f c = f a c := rfl

@[simp] theorem andThen_emit {β : Type} (e : Event) (f : Unit → Act β) (c : TActionContext) :
    andThen (emit e) f c = f () (c.log e) := rfl

@[simp] theorem andThen_raise {α β : Type} (e : Fault) (f : α → Act β) (c : TActionContext) :
    andThen (raise e) f c = (.error e, c) := rfl

@[simp] theorem andThen_update {β : Type} (g : TActionContext → TActionContext)
    (f : Unit → Act β) (c : TActionContext) : andThen (update g) f c = f () (g c) := rfl

@[simp] theorem andThen_current {β : Type} (f : TActionContext → Act β) (c : TActionContext) :
    andThen current f c = f c c := rfl

@[simp] theorem andThen_answer {α β : Type} (r : Except Fault α) (f : α → Act β)
    (c : TActionContext) :
    andThen (answer r) f c = match r with
      | .ok a => f a c
      | .error e => (.error e, c) := by
  cases r <;> rfl

@[simp] theorem andThen_hook {α β : Type} (env : Env) (h : Hook α) (f : α → Act β)
    (c : TActionContext) :
    andThen (h.run env) f c = match h.result with
      | .ok a => f a (runCalls env h.calls c)
      | .error e => (.error e, runCalls env h.calls c) := by
  unfold Hook.run andThen
  cases h.result <;> rfl

@[simp] theorem andThen_assoc {α β γ : Type} (x : Act α) (f : α → Act β) (g : β → Act γ) :
    andThen (andThen x f) g = andThen x (fun a => andThen (f a) g) := by
  funext c
  unfold andThen
  rcases x c with ⟨r, c'⟩
  cases r <;> rfl

@[simp] theorem andThen_ite {α β : Type} (p : Prop) [Decidable p] (x y : Act α) (f : α → Act β) :
    andThen (if p then x else y) f = if p then andThen x f else andThen y f := by
  split <;> rfl

@[simp] theorem ite_act {α : Type} (p : Prop) [Decidable p] (x y : Act α) (c : TActionContext) :
    (if p then x else y) c = if p then x c else y c := by
  split <;> rfl

@[simp] theorem update_apply (g : TActionContext → TActionContext) (c : TActionContext) :
    update g c = (.ok (), g c) := rfl

theorem andThen_apply {α β : Type} (x : Act α) (f : α → Act β) (c : TActionContext) :
    andThen x f c = match x c with
      | (.ok a, c') => f a c'
      | (.error e, c') => (.error e, c') := rfl

@[simp] theorem andThen_writeResponse {β : Type} (env : Env) (header : THttpResponseHeader)
    (body : Body) (length : Nat) (f : Int × THttpResponseHeader → Act β) (c : TActionContext) :
    andThen (writeResponse env header body length) f c =
      f (env.transportWrite (stampHeader env header length) body, stampHeader env header length)
        (c.log (.writeResponse (stampHeader env header length) body)) := rfl

@[simp] theorem writeResponse_apply (env : Env) (header : THttpResponseHeader)
    (body : Body) (length : Nat) (c : TActionContext) :
    writeResponse env header body length c =
      (.ok (env.transportWrite (stampHeader env header length) body,
          stampHeader env header length),
        c.log (.writeResponse (stampHeader env header length) body)) := rfl

/-! ## Lemmas: quiet calls -/

@[simp] theorem milestones_nil : milestones [] = [] := rfl

@[simp] theorem milestones_append (a b : List Event) :
    milestones (a ++ b) = milestones a ++ milestones b := by
  simp [milestones]

@[simp] theorem milestones_cons (e : Event) (b : List Event) :
    milestones (e :: b) = if e.isQuiet then milestones b else e :: milestones b := by
  simp only [milestones, List.filter_cons]
  cases e.isQuiet <;> simp

theorem quiet_refl (c : TActionContext) : Quiet c c := ⟨rfl, rfl, rfl, rfl, rfl⟩

theorem quiet_trans {a b c : TActionContext} (h₁ : Quiet a b) (h₂ : Quiet b c) : Quiet a c :=
  ⟨h₂.trace.trans h₁.trace, h₂.logger.trans h₁.logger, h₂.header.trans h₁.header,
    h₂.files.trans h₁.files, h₂.temp.trans h₁.temp⟩

theorem quiet_log (c : TActionContext) (e : Event) (he : e.isQuiet = true) : Quiet c (c.log e) :=
  ⟨by simp [he], rfl, rfl, rfl, rfl⟩

theorem getSqlDatabase_quiet (env : Env) (id : Int) (p : Except Fault QSqlDatabase)
    (c : TActionContext) : Quiet c (getSqlDatabase env id p c).2 := by
  unfold getSqlDatabase beginTransaction
  constructor <;>
    (simp only []; split_ifs <;> (try split) <;> (try split_ifs) <;>
      simp [milestones_cons, Event.isQuiet])

theorem getKvsDatabase_quiet (type : Int) (p : Except Fault TKvsDatabase)
    (c : TActionContext) : Quiet c (getKvsDatabase type p c).2 := by
  unfold getKvsDatabase
  constructor <;>
    (simp only []; split_ifs <;> (try split) <;> simp [milestones_cons, Event.isQuiet])

theorem runCalls_quiet (env : Env) (calls : List ContextCall) (c : TActionContext) :
    Quiet c (runCalls env calls c) := by
  induction calls generalizing c with
  | nil => exact quiet_refl c
  | cons call rest ih =>
    have h₁ : Quiet c (call.run env c).2 := by
      cases call with
      | sql id p => exact getSqlDatabase_quiet env id p c
      | kvs t p => exact getKvsDatabase_quiet t p c
    exact quiet_trans h₁ (ih _)

@[simp] theorem runCalls_milestones (env : Env) (calls : List ContextCall) (c : TActionContext) :
    milestones (runCalls env calls c).trace = milestones c.trace :=
  (runCalls_quiet env calls c).trace

@[simp] theorem runCalls_accessLogger (env : Env) (calls : List ContextCall)
    (c : TActionContext) : (runCalls env calls c).accessLogger = c.accessLogger :=
  (runCalls_quiet env calls c).logger

@[simp] theorem runCalls_responseHeader (env : Env) (calls : List ContextCall)
    (c : TActionContext) : (runCalls env calls c).responseHeader = c.responseHeader :=
  (runCalls_quiet env calls c).header

theorem isQuiet_andThen {α β : Type} {x : Act α} {f : α → Act β} (hx : x.IsQuiet)
    (hf : ∀ a, (f a).IsQuiet) : (andThen x f).IsQuiet := by
  intro c
  have h₁ := hx c
  unfold andThen
  rcases hxc : x c with ⟨r, c'⟩
  rw [hxc] at h₁
  cases r with
  | error e => exact h₁
  | ok a => exact quiet_trans h₁ (hf a c')

theorem isQuiet_emit {e : Event} (he : e.isQuiet = true) : (emit e).IsQuiet :=
  fun c => quiet_log c e he

theorem isQuiet_ret {α : Type} (a : α) : (ret a).IsQuiet := fun c => quiet_refl c

theorem isQuiet_raise {α : Type} (f : Fault) : (raise f : Act α).IsQuiet := fun c => quiet_refl c

theorem isQuiet_answer {α : Type} (r : Except Fault α) : (answer r).IsQuiet :=
  fun c => quiet_refl c

theorem isQuiet_ite {α : Type} {p : Prop} [Decidable p] {x y : Act α} (hx : x.IsQuiet)
    (hy : y.IsQuiet) : (if p then x else y).IsQuiet := by
  split
  · exact hx
  · exact hy

theorem loadSession_quiet (env : Env) (request : THttpRequest) (ctl : TActionController) :
    (loadSession env request ctl).IsQuiet := by
  unfold loadSession
  simp only [bind_def, pure_def]
  repeat (first
    | exact isQuiet_emit rfl
    | exact isQuiet_ret _
    | exact isQuiet_raise _
    | exact isQuiet_answer _
    | apply isQuiet_andThen
    | apply isQuiet_ite
    | intro _)

theorem verifyAuthenticityToken_quiet (env : Env) (request : THttpRequest)
    (method : HttpMethod) (rt : TRouting) (ctl : TActionController) :
    (verifyAuthenticityToken env request method rt ctl).IsQuiet := by
  unfold verifyAuthenticityToken
  simp only [bind_def, pure_def]
  repeat (first
    | exact isQuiet_emit rfl
    | exact isQuiet_ret _
    | exact isQuiet_raise _
    | exact isQuiet_answer _
    | apply isQuiet_andThen
    | apply isQuiet_ite
    | intro _)

theorem prepareSession_quiet (env : Env) (ctl : TActionController) (session : TSession) :
    (prepareSession env ctl session).IsQuiet := by
  unfold prepareSession
  simp only [bind_def, pure_def]
  repeat (first
    | exact isQuiet_emit rfl
    | exact isQuiet_ret _
    | exact isQuiet_raise _
    | exact isQuiet_answer _
    | apply isQuiet_andThen
    | apply isQuiet_ite
    | intro _)

theorem prepare_quiet (env : Env) (request : THttpRequest) (method : HttpMethod) (rt : TRouting)
    (ctl : TActionController) : (prepare env request method rt ctl).IsQuiet := by
  unfold prepare
  simp only [bind_def, pure_def]
  exact isQuiet_andThen (isQuiet_emit rfl) fun _ =>
    isQuiet_andThen (loadSession_quiet env request ctl) fun s =>
      isQuiet_andThen (verifyAuthenticityToken_quiet env request method rt ctl) fun _ =>
        isQuiet_andThen (prepareSession_quiet env ctl s) fun s' =>
          isQuiet_andThen (isQuiet_emit rfl) fun _ => isQuiet_ret _

theorem dispatch_summary (env : Env) (rt : TRouting) (ctl : TActionController) (s : TSession)
    (c : TActionContext) :
    (dispatch env rt ctl s c).1 = (dispatchSummary env rt ctl s).1 ∧
    milestones (dispatch env rt ctl s c).2.trace
      = milestones c.trace ++ (dispatchSummary env rt ctl s).2 ∧
    (dispatch env rt ctl s c).2.accessLogger = c.accessLogger ∧
    (dispatch env rt ctl s c).2.responseHeader = c.responseHeader := by
  simp only [dispatch, storeSession, dispatchSummary, bind_def, pure_def, rollbackTransactions,
    commitTransactions]
  rcases hpre : ctl.preFilter.result with f | (_ | _) <;> simp [hpre, Event.isQuiet]
  rcases hinv : (ctl.invoke rt.action rt.params).result with f | (_ | _) <;>
    simp [hinv, Event.isQuiet]
  rcases hpost : ctl.postFilter.result with f | _ <;> simp [hpost, Event.isQuiet]
  cases hr : ctl.rollbackRequested <;> cases hs : ctl.sessionEnabled <;>
    simp [hr, hs, Event.isQuiet]
  all_goals (rcases hst : env.storeSession s with f | (_ | _) <;> simp [hst, Event.isQuiet])

theorem isSteady_andThen {α β : Type} {x : Act α} {f : α → Act β} (hx : x.IsSteady)
    (hf : ∀ a, (f a).IsSteady) : (andThen x f).IsSteady := by
  intro c c'
  have h₁ := hx c c'
  unfold andThen
  rcases hxc : x c with ⟨r, d⟩
  rcases hxc' : x c' with ⟨r', d'⟩
  rw [hxc, hxc'] at h₁
  simp only at h₁
  subst h₁
  cases r with
  | error e => rfl
  | ok a => exact hf a d d'

theorem isSteady_emit (e : Event) : (emit e).IsSteady := fun _ _ => rfl

theorem isSteady_ret {α : Type} (a : α) : (ret a).IsSteady := fun _ _ => rfl

theorem isSteady_raise {α : Type} (f : Fault) : (raise f : Act α).IsSteady := fun _ _ => rfl

theorem isSteady_answer {α : Type} (r : Except Fault α) : (answer r).IsSteady := fun _ _ => rfl

theorem isSteady_ite {α : Type} {p : Prop} [Decidable p] {x y : Act α} (hx : x.IsSteady)
    (hy : y.IsSteady) : (if p then x else y).IsSteady := by
  split
  · exact hx
  · exact hy

theorem prepare_steady (env : Env) (request : THttpRequest) (method : HttpMethod) (rt : TRouting)
    (ctl : TActionController) : (prepare env request method rt ctl).IsSteady := by
  unfold prepare loadSession verifyAuthenticityToken prepareSession
  simp only [bind_def, pure_def]
  repeat (first
    | exact isSteady_emit _
    | exact isSteady_ret _
    | exact isSteady_raise _
    | exact isSteady_answer _
    | apply isSteady_andThen
    | apply isSteady_ite
    | intro _)

theorem executeEvents_eq (env : Env) (request : THttpRequest) (c : TActionContext) :
    executeEvents env request c =
      (recover env (match env.dispatcherObject (requestRouting env request).controller with
        | some ctl => runController env request request.method (requestRouting env request) ctl
            (atDispatch env request c)
        | none => serveStatic env request request.method (decodedPath env request)
            (atDispatch env request c))).trace ++
      [.accessLogWrite (recover env (match env.dispatcherObject (requestRouting env request).controller with
        | some ctl => runController env request request.method (requestRouting env request) ctl
            (atDispatch env request c)
        | none => serveStatic env request request.method (decodedPath env request)
            (atDispatch env request c))).accessLogger] := by
  unfold executeEvents execute executeTry atDispatch
  simp only [bind_def, pure_def, andThen_update, andThen_emit, TActionContext.log_trace]
  cases env.dispatcherObject (requestRouting env request).controller <;> rfl

theorem recover_milestones (env : Env) (r : Except Fault Unit) (c : TActionContext)
    (hh : c.responseHeader = default) :
    milestones (recover env (r, c)).trace = milestones c.trace ++
      match r with
      | .error f => catchTrail env f
      | .ok _ => [] := by
  cases r with
  | ok u => simp [recover]
  | error f =>
    cases f <;>
      simp [recover, executeCatch, catchTrail, bind_def, pure_def, writeResponseStatus,
        writeResponseContent, Event.isQuiet, hh]

theorem respond_apply (env : Env) (ctl : TActionController) (c : TActionContext) :
    ∃ c', respond env ctl c = (env.collectGarbage, c') ∧
      c'.trace = c.trace ++ respondTrail env ctl ∧
      c'.responseHeader = c.responseHeader := by
  refine ⟨(respond env ctl c).2, ?_, ?_, ?_⟩
  · simp [respond, bind_def, pure_def, answer]
  · simp [respond, bind_def, pure_def, answer, respondTrail]
  · simp [respond, bind_def, pure_def, answer]

theorem milestones_respondTrail (env : Env) (ctl : TActionController) :
    milestones (respondTrail env ctl) = respondTrail env ctl := by
  simp [respondTrail, Event.isQuiet]

theorem milestones_controller (env : Env) (request : THttpRequest) (c : TActionContext)
    (ctl : TActionController)
    (hd : env.dispatcherObject (requestRouting env request).controller = some ctl) :
    ∃ record, milestones (executeEvents env request c) =
      .accessLogOpen :: .createController (requestRouting env request).controller ::
        (controllerTrail env request ctl ++ [.accessLogWrite record]) := by
  rw [executeEvents_eq, hd]
  refine ⟨(recover env (runController env request request.method (requestRouting env request) ctl
    (atDispatch env request c))).accessLogger, ?_⟩
  have h0 : milestones (atDispatch env request c).trace =
      [.accessLogOpen, .createController (requestRouting env request).controller] := by
    simp [atDispatch, Event.isQuiet]
  have hh0 : (atDispatch env request c).responseHeader = default := by simp [atDispatch]
  generalize atDispatch env request c = c₁ at h0 hh0 ⊢
  simp only [milestones_append, milestones_cons, milestones_nil, Event.isQuiet, Bool.false_eq_true,
    if_false]
  simp only [runController, bind_def, pure_def, controllerTrail, prepareOutcome]
  rw [andThen_apply]
  have hq := prepare_quiet env request request.method (requestRouting env request) ctl c₁
  have hst := prepare_steady env request request.method (requestRouting env request) ctl c₁
    TActionContext.init
  rcases hp : prepare env request request.method (requestRouting env request) ctl c₁ with ⟨r, c₂⟩
  rw [hp] at hq hst
  simp only at hst
  rw [← hst]
  have hm := hq.trace.trans h0
  have hh := hq.header.trans hh0
  simp only at hm hh
  cases r with
  | error f =>
    simp only
    rw [recover_milestones env _ _ hh, hm]
    simp
  | ok s =>
    simp only
    rw [andThen_apply]
    obtain ⟨hd1, hd2, _, hd4⟩ := dispatch_summary env (requestRouting env request) ctl s c₂
    rcases hdis : dispatch env (requestRouting env request) ctl s c₂ with ⟨r', c₃⟩
    rw [hdis] at hd1 hd2 hd4
    simp only at hd1 hd2 hd4
    rw [← hd1]
    cases r' with
    | error f =>
      simp only
      rw [recover_milestones env _ _ (hd4.trans hh), hd2, hm]
      simp
    | ok u =>
      simp only
      obtain ⟨c₄, hr, ht, hh4⟩ := respond_apply env ctl c₃
      rw [hr, recover_milestones env _ _ (hh4.trans (hd4.trans hh)), ht, milestones_append,
        milestones_respondTrail, hd2, hm]
      unfold gcTrail
      cases env.collectGarbage <;> simp

theorem countP_milestones (p : Event → Bool) (hp : ∀ e, p e = true → e.isQuiet = false)
    (tr : List Event) : tr.countP p = (milestones tr).countP p := by
  induction tr with
  | nil => rfl
  | cons e rest ih =>
    rw [milestones_cons]
    by_cases h : p e = true
    · simp [hp e h, List.countP_cons, ih, h]
    · cases hdb : e.isQuiet <;> simp [List.countP_cons, ih, h]

theorem mem_milestones (e : Event) (tr : List Event) :
    e ∈ milestones tr ↔ e ∈ tr ∧ e.isQuiet = false := by
  simp [milestones, List.mem_filter]

theorem all_milestones (p : Event → Bool) (hp : ∀ e, p e = true → e.isQuiet = false)
    (tr : List Event) :
    (milestones tr).all (fun e => !p e) = tr.all (fun e => !p e) := by
  induction tr with
  | nil => rfl
  | cons e rest ih =>
    rw [milestones_cons]
    cases hq : e.isQuiet
    · simp [ih]
    · have : p e = false := by
        cases hpe : p e
        · rfl
        · rw [hp e hpe] at hq; cases hq
      simp [ih, this]

theorem precedes_milestones (p q : Event → Bool) (hp : ∀ e, p e = true → e.isQuiet = false)
    (hq : ∀ e, q e = true → e.isQuiet = false) (tr : List Event) :
    precedes p q (milestones tr) = precedes p q tr := by
  induction tr with
  | nil => rfl
  | cons e rest ih =>
    rw [milestones_cons]
    cases hqe : e.isQuiet
    · have h := all_milestones p hp rest
      simp only [Bool.false_eq_true, if_false, precedes, List.all_cons, ih, h]
    · have h1 : p e = false := by
        cases hpe : p e
        · rfl
        · rw [hp e hpe] at hqe; cases hqe
      have h2 : q e = false := by
        cases hpe : q e
        · rfl
        · rw [hq e hpe] at hqe; cases hqe
      simp [precedes, ih, h1, h2]

theorem executeEvents_static (env : Env) (request : THttpRequest) (c : TActionContext)
    (hd : env.dispatcherObject (requestRouting env request).controller = none) :
    (request.method = .Get → ∃ header body record, executeEvents env request c =
      [.accessLogOpen, .createController (requestRouting env request).controller,
        .writeResponse header body, .accessLogWrite record]) ∧
    (request.method ≠ .Get → ∃ record, executeEvents env request c =
      [.accessLogOpen, .createController (requestRouting env request).controller,
        .accessLogWrite record]) := by
  rw [executeEvents_eq, hd]
  simp only [serveStatic, bind_def, pure_def, writeResponseStatus, writeResponseContent]
  constructor
  · intro hm
    simp [hm]
    split_ifs <;> simp [recover, atDispatch]
  · intro hm
    simp [hm, recover, atDispatch]

theorem catchTrail_writes (env : Env) (f : Fault) :
    (catchTrail env f).countP Event.isWrite ≤ 1 ∧
    ((catchTrail env f).countP Event.isWrite = 1 ↔ ∃ n, f = .clientError n) ∧
    ((catchTrail env f).countP Event.isWrite = 0 ↔ .closeHttpSocket ∈ catchTrail env f) ∧
    .collectGarbage ∉ catchTrail env f := by
  cases f <;> simp [catchTrail, Event.isWrite]

theorem gcTrail_writes (env : Env) :
    (gcTrail env).countP Event.isWrite ≤ 1 ∧
    ((gcTrail env).countP Event.isWrite = 1 ↔ ∃ n, env.collectGarbage = .error (.clientError n)) ∧
    .collectGarbage ∉ gcTrail env := by
  unfold gcTrail
  rcases env.collectGarbage with f | _
  · obtain ⟨h1, h2, _, h4⟩ := catchTrail_writes env f
    simpa using ⟨h1, h2, h4⟩
  · simp

theorem dispatchSummary_write_close (env : Env) (rt : TRouting) (ctl : TActionController)
    (s : TSession) :
    (dispatchSummary env rt ctl s).2.countP Event.isWrite = 0 ∧
    (dispatchSummary env rt ctl s).2.count .closeHttpSocket = 0 ∧
    (dispatchSummary env rt ctl s).2.countP Event.isLogWrite = 0 ∧
    (dispatchSummary env rt ctl s).2.count .collectGarbage = 0 := by
  unfold dispatchSummary
  repeat' split
  all_goals simp [Event.isWrite, Event.isLogWrite]
  all_goals split <;> simp

theorem controllerTrail_writes (env : Env) (request : THttpRequest)
    (ctl : TActionController) :
    (controllerTrail env request ctl).countP Event.isWrite ≤ 2 ∧
    ((controllerTrail env request ctl).countP Event.isWrite = 2 ↔
      .collectGarbage ∈ controllerTrail env request ctl ∧
        ∃ n, env.collectGarbage = .error (.clientError n)) ∧
    ((controllerTrail env request ctl).countP Event.isWrite = 0 ↔
      .closeHttpSocket ∈ controllerTrail env request ctl ∧
        .collectGarbage ∉ controllerTrail env request ctl) := by
  unfold controllerTrail
  split
  · rename_i f _
    obtain ⟨h1, _, h3, h4⟩ := catchTrail_writes env f
    refine ⟨by omega, ?_, ?_⟩
    · constructor
      · intro h; omega
      · rintro ⟨h, _⟩; exact absurd h h4
    · rw [h3]
      constructor
      · intro h; exact ⟨h, h4⟩
      · intro h; exact h.1
  · rename_i s _
    obtain ⟨h1, h2, _, h5⟩ := dispatchSummary_write_close env (requestRouting env request) ctl s
    have h2' := List.count_eq_zero.mp h2
    have h5' := List.count_eq_zero.mp h5
    rw [List.countP_append, h1]
    simp only [List.mem_append, h2', h5', false_or, Nat.zero_add]
    split
    · rename_i f _
      obtain ⟨h1, _, h3, h4⟩ := catchTrail_writes env f
      refine ⟨by omega, ?_, ?_⟩
      · constructor
        · intro h; omega
        · rintro ⟨h, _⟩; exact absurd h h4
      · rw [h3]
        constructor
        · intro h; exact ⟨h, h4⟩
        · intro h; exact h.1
    · obtain ⟨g1, g2, g3⟩ := gcTrail_writes env
      have hr : (respondTrail env ctl).countP Event.isWrite = 1 := by
        simp [respondTrail, Event.isWrite]
      have hg : Event.collectGarbage ∈ respondTrail env ctl := by simp [respondTrail]
      have hg' : Event.collectGarbage ∈ respondTrail env ctl ++ gcTrail env :=
        List.mem_append.mpr (Or.inl hg)
      rw [List.countP_append, hr]
      refine ⟨by omega, ?_, ?_⟩
      · rw [← g2]
        constructor
        · intro h; exact ⟨hg', by omega⟩
        · rintro ⟨_, h⟩; omega
      · constructor
        · intro h; omega
        · rintro ⟨_, h⟩; exact absurd hg' h

theorem executeEvents_last (env : Env) (request : THttpRequest) (c : TActionContext) :
    ∃ events record, executeEvents env request c = events ++ [.accessLogWrite record] := by
  rw [executeEvents_eq]
  exact ⟨_, _, rfl⟩

theorem controllerTrail_isLogWrite (env : Env) (request : THttpRequest)
    (ctl : TActionController) :
    (controllerTrail env request ctl).countP Event.isLogWrite = 0 := by
  have hc : ∀ f, (catchTrail env f).countP Event.isLogWrite = 0 := by
    intro f
    cases f <;> simp [catchTrail, Event.isLogWrite]
  unfold controllerTrail
  split
  · exact hc _
  · rename_i s _
    obtain ⟨_, _, h3, _⟩ := dispatchSummary_write_close env (requestRouting env request) ctl s
    rw [List.countP_append, h3]
    split
    · simpa using hc _
    · have hg : (gcTrail env).countP Event.isLogWrite = 0 := by
        unfold gcTrail
        rcases env.collectGarbage with f | _
        · exact hc f
        · rfl
      rw [List.countP_append, hg]
      simp [respondTrail, Event.isLogWrite]

theorem catchTrail_mem (env : Env) (f : Fault) (e : Event) (h : e ∈ catchTrail env f) :
    e.isWrite = true ∨ e = .closeHttpSocket := by
  cases f <;> simp [catchTrail] at h <;> simp [h, Event.isWrite]

theorem gcTrail_mem (env : Env) (e : Event) (h : e ∈ gcTrail env) :
    e.isWrite = true ∨ e = .closeHttpSocket := by
  unfold gcTrail at h
  rcases hg : env.collectGarbage with f | _
  · rw [hg] at h
    exact catchTrail_mem env f e h
  · rw [hg] at h
    simp at h

theorem respondTrail_mem (env : Env) (ctl : TActionController) (e : Event)
    (h : e ∈ respondTrail env ctl) : e.isWrite = true ∨ e = .collectGarbage := by
  simp [respondTrail] at h
  rcases h with h | h <;> simp [h, Event.isWrite]

theorem invoke_mem_controllerTrail (env : Env) (request : THttpRequest)
    (ctl : TActionController) :
    Event.invoke (requestRouting env request).action (requestRouting env request).params
        ∈ controllerTrail env request ctl ↔
      (∃ s, prepareOutcome env request ctl = .ok s) ∧ ctl.preFilter.result = .ok true := by
  unfold controllerTrail
  rcases hp : prepareOutcome env request ctl with f | s
  · cases f <;> simp [catchTrail]
  · have hc : ∀ f, Event.invoke (requestRouting env request).action
        (requestRouting env request).params ∉ catchTrail env f := by
      intro f h
      rcases catchTrail_mem env f _ h with h | h <;> simp [Event.isWrite] at h
    have hr : Event.invoke (requestRouting env request).action
        (requestRouting env request).params ∉ respondTrail env ctl := by
      intro h
      rcases respondTrail_mem env ctl _ h with h | h <;> simp [Event.isWrite] at h
    have hg : Event.invoke (requestRouting env request).action
        (requestRouting env request).params ∉ gcTrail env := by
      intro h
      rcases gcTrail_mem env _ h with h | h <;> simp [Event.isWrite] at h
    simp only [dispatchSummary]
    rcases hpre : ctl.preFilter.result with f | (_ | _) <;> simp [hc, hr, hg]
    rcases hinv : (ctl.invoke (requestRouting env request).action
      (requestRouting env request).params).result with f | (_ | _) <;> simp
    rcases hpost : ctl.postFilter.result with f | _ <;> simp
    cases ctl.sessionEnabled <;> simp
    rcases hst : env.storeSession s with f | (_ | _) <;> simp

theorem store_controllerTrail (env : Env) (request : THttpRequest)
    (ctl : TActionController) :
    (controllerTrail env request ctl).countP Event.isStore ≤ 1 ∧
    ((∃ s, Event.sessionStore s ∈ controllerTrail env request ctl) ↔
      (∃ s, prepareOutcome env request ctl = .ok s) ∧ ctl.preFilter.result = .ok true ∧
        (ctl.invoke (requestRouting env request).action
          (requestRouting env request).params).result = .ok true ∧
        ctl.postFilter.result = .ok () ∧ ctl.sessionEnabled = true) := by
  unfold controllerTrail
  rcases hp : prepareOutcome env request ctl with f | s
  · cases f <;> simp [catchTrail, Event.isStore]
  · have hc : ∀ f x, Event.sessionStore x ∉ catchTrail env f := by
      intro f x h
      rcases catchTrail_mem env f _ h with h | h <;> simp [Event.isWrite] at h
    have hr : ∀ x, Event.sessionStore x ∉ respondTrail env ctl := by
      intro x h
      rcases respondTrail_mem env ctl _ h with h | h <;> simp [Event.isWrite] at h
    have hc' : ∀ f, (catchTrail env f).countP Event.isStore = 0 := by
      intro f
      cases f <;> simp [catchTrail, Event.isStore]
    have hg : ∀ x, Event.sessionStore x ∉ gcTrail env := by
      intro x h
      rcases gcTrail_mem env _ h with h | h <;> simp [Event.isWrite] at h
    have hr' : (respondTrail env ctl ++ gcTrail env).countP Event.isStore = 0 := by
      rw [List.countP_eq_zero]
      intro e he
      rcases List.mem_append.mp he with h | h
      · rcases respondTrail_mem env ctl e h with h | h
        · cases e <;> simp_all [Event.isWrite, Event.isStore]
        · subst h; simp [Event.isStore]
      · rcases gcTrail_mem env e h with h | h
        · cases e <;> simp_all [Event.isWrite, Event.isStore]
        · subst h; simp [Event.isStore]
    simp only [dispatchSummary]
    rcases hpre : ctl.preFilter.result with f | (_ | _) <;>
      simp [hc, hr, hg, hc', hr', Event.isStore]
    rcases hinv : (ctl.invoke (requestRouting env request).action
      (requestRouting env request).params).result with f | (_ | _) <;>
      simp [hc, hr, hg, hc', hr', Event.isStore]
    rcases hpost : ctl.postFilter.result with f | _ <;> simp [hc, hr, hg, hc', hr', Event.isStore]
    cases hs : ctl.sessionEnabled <;> cases hrb : ctl.rollbackRequested <;>
      simp [hc, hr, hg, hc', hr', Event.isStore]
    all_goals (rcases hst : env.storeSession s with f | (_ | _) <;>
      simp [hc, hr, hg, hc', hr', Event.isStore])

theorem resolution_controllerTrail (env : Env) (request : THttpRequest)
    (ctl : TActionController) :
    ((∃ s, prepareOutcome env request ctl = .ok s) → ctl.preFilter.result = .ok true →
      (ctl.invoke (requestRouting env request).action
        (requestRouting env request).params).result = .ok true →
      ctl.postFilter.result = .ok () →
        (controllerTrail env request ctl).count .commitTransactions
          + (controllerTrail env request ctl).count .rollbackTransactions = 1 ∧
        (Event.rollbackTransactions ∈ controllerTrail env request ctl ↔
          ctl.rollbackRequested = true)) ∧
    (¬ ((∃ s, prepareOutcome env request ctl = .ok s) ∧ ctl.preFilter.result = .ok true ∧
      (ctl.invoke (requestRouting env request).action
        (requestRouting env request).params).result = .ok true ∧
      ctl.postFilter.result = .ok ()) →
        Event.commitTransactions ∉ controllerTrail env request ctl ∧
        Event.rollbackTransactions ∉ controllerTrail env request ctl) := by
  unfold controllerTrail
  rcases hp : prepareOutcome env request ctl with f | s
  · cases f <;> simp [catchTrail]
  · have hc : ∀ f, Event.commitTransactions ∉ catchTrail env f ∧
        Event.rollbackTransactions ∉ catchTrail env f := by
      intro f
      cases f <;> simp [catchTrail]
    have hr : Event.commitTransactions ∉ respondTrail env ctl ++ gcTrail env ∧
        Event.rollbackTransactions ∉ respondTrail env ctl ++ gcTrail env := by
      constructor <;>
      · intro h
        rcases List.mem_append.mp h with h | h
        · rcases respondTrail_mem env ctl _ h with h | h <;> simp [Event.isWrite] at h
        · rcases gcTrail_mem env _ h with h | h <;> simp [Event.isWrite] at h
    have hc1 := fun f => (hc f).1
    have hc2 := fun f => (hc f).2
    have hc3 := fun f => List.count_eq_zero.mpr (hc f).1
    have hc4 := fun f => List.count_eq_zero.mpr (hc f).2
    have hr3 := List.count_eq_zero.mpr hr.1
    have hr4 := List.count_eq_zero.mpr hr.2
    simp only [dispatchSummary]
    rcases hpre : ctl.preFilter.result with f | (_ | _) <;>
      simp [hc1, hc2, hr, hc3, hc4, hr3, hr4, List.count_cons]
    rcases hinv : (ctl.invoke (requestRouting env request).action
      (requestRouting env request).params).result with f | (_ | _) <;>
      simp [hc1, hc2, hr, hc3, hc4, hr3, hr4, List.count_cons]
    rcases hpost : ctl.postFilter.result with f | _ <;>
      simp [hc1, hc2, hr, hc3, hc4, hr3, hr4, List.count_cons]
    cases hs : ctl.sessionEnabled <;> cases hrb : ctl.rollbackRequested <;>
      simp [hc1, hc2, hr, hc3, hc4, hr3, hr4, List.count_cons]
    all_goals (rcases hst : env.storeSession s with f | (_ | _) <;>
      simp [hc1, hc2, hr, hc3, hc4, hr3, hr4, List.count_cons])

theorem countP_executeEvents_controller (env : Env) (request : THttpRequest)
    (c : TActionContext) (ctl : TActionController)
    (hd : env.dispatcherObject (requestRouting env request).controller = some ctl)
    (p : Event → Bool) (hp : ∀ e, p e = true → e.isQuiet = false)
    (h₁ : p .accessLogOpen = false) (h₂ : ∀ n, p (.createController n) = false)
    (h₃ : ∀ r, p (.accessLogWrite r) = false) :
    (executeEvents env request c).countP p = (controllerTrail env request ctl).countP p := by
  obtain ⟨r, he⟩ := milestones_controller env request c ctl hd
  rw [countP_milestones p hp, he]
  simp [List.countP_cons, List.countP_append, h₁, h₂, h₃]

theorem count_executeEvents_controller (env : Env) (request : THttpRequest)
    (c : TActionContext) (ctl : TActionController)
    (hd : env.dispatcherObject (requestRouting env request).controller = some ctl)
    (e : Event) (hq : e.isQuiet = false)
    (h₁ : e ≠ .accessLogOpen) (h₂ : ∀ n, e ≠ .createController n)
    (h₃ : ∀ r, e ≠ .accessLogWrite r) :
    (executeEvents env request c).count e = (controllerTrail env request ctl).count e := by
  unfold List.count
  apply countP_executeEvents_controller env request c ctl hd
  · intro x hx
    rw [beq_iff_eq] at hx
    rw [hx]; exact hq
  · exact beq_false_of_ne (Ne.symm h₁)
  · intro n; exact beq_false_of_ne (Ne.symm (h₂ n))
  · intro r; exact beq_false_of_ne (Ne.symm (h₃ r))

theorem mem_executeEvents_controller (env : Env) (request : THttpRequest)
    (c : TActionContext) (ctl : TActionController)
    (hd : env.dispatcherObject (requestRouting env request).controller = some ctl)
    (e : Event) (hq : e.isQuiet = false)
    (h₁ : e ≠ .accessLogOpen) (h₂ : ∀ n, e ≠ .createController n)
    (h₃ : ∀ r, e ≠ .accessLogWrite r) :
    e ∈ executeEvents env request c ↔ e ∈ controllerTrail env request ctl := by
  rw [← List.count_pos_iff, ← List.count_pos_iff,
    count_executeEvents_controller env request c ctl hd e hq h₁ h₂ h₃]

theorem prepare_security (env : Env) (request : THttpRequest) (rt : TRouting)
    (ctl : TActionController)
    (hmethod : request.method = .Post ∨ request.method = .Put ∨ request.method = .Delete)
    (hglobal : env.enableCsrfProtectionModule = true)
    (hopt : ctl.csrfProtectionEnabled = true)
    (hexempt : rt.action ∉ ctl.exceptionActionsOfCsrfProtection)
    (hsession : ctl.sessionEnabled = true → (request.cookie env.sessionName).isEmpty = false →
      ∃ s, env.findSession (request.cookie env.sessionName) = .ok s)
    (hverify : ctl.verifyRequest request = .ok false) (c : TActionContext) :
    (prepare env request request.method rt ctl c).1 = .error .security := by
  simp only [prepare, loadSession, verifyAuthenticityToken, prepareSession, bind_def, pure_def]
  cases hs : ctl.sessionEnabled
  · simp [hglobal, hopt, hexempt, hmethod, hverify]
  · cases hck : (request.cookie env.sessionName).isEmpty
    · obtain ⟨s, hf⟩ := hsession hs hck
      simp [hglobal, hopt, hexempt, hmethod, hverify, hck, hf]
    · simp [hglobal, hopt, hexempt, hmethod, hverify, hck]

@[simp] theorem stampHeader_statusCode (env : Env) (h : THttpResponseHeader) (n : Nat) :
    (stampHeader env h n).statusCode = h.statusCode := rfl

@[simp] theorem stampHeader_contentLength (env : Env) (h : THttpResponseHeader) (n : Nat) :
    (stampHeader env h n).contentLength = n := rfl

@[simp] theorem contentHeader_statusCode (env : Env) (statusCode : Nat)
    (h : THttpResponseHeader) (contentType : String) :
    (contentHeader env statusCode h contentType).statusCode = statusCode := by
  unfold contentHeader
  simp only []
  split <;> rfl

theorem contentHeader_rawHeaders (env : Env) (statusCode : Nat)
    (h : THttpResponseHeader) (contentType : String) :
    (contentHeader env statusCode h contentType).rawHeaders = h.rawHeaders := by
  unfold contentHeader
  simp only []
  split <;> rfl

theorem rawHeader_setRawHeader (h : THttpResponseHeader) (key value : String) :
    (h.setRawHeader key value).rawHeader key = value := by
  unfold THttpResponseHeader.rawHeader THttpResponseHeader.setRawHeader
  have hnone : List.find? (fun kv => kv.1 == key)
      (List.filter (fun kv => kv.1 != key) h.rawHeaders) = none := by
    rw [List.find?_eq_none]
    intro kv hkv
    rw [List.mem_filter] at hkv
    simpa using hkv.2
  simp [List.find?_append, hnone]

theorem find_filter_ne (l : List (String × String)) (key other : String) (hne : other ≠ key) :
    List.find? (fun kv => kv.1 == key) (List.filter (fun kv => kv.1 != other) l)
      = List.find? (fun kv => kv.1 == key) l := by
  induction l with
  | nil => rfl
  | cons kv rest ih =>
    rcases kv with ⟨a, b⟩
    by_cases h1 : a = other
    · have hb : ((a, b).1 != other) = false := by simp [h1]
      have hk : ((a, b).1 == key) = false := by simp [h1, hne]
      rw [List.filter_cons, hb, List.find?_cons, hk]
      simpa using ih
    · have hb : ((a, b).1 != other) = true := by simp [h1]
      rw [List.filter_cons, hb]
      simp only [if_true, List.find?_cons, ih]

theorem rawHeader_setRawHeader_ne (h : THttpResponseHeader) (key other value : String)
    (hne : other ≠ key) :
    (h.setRawHeader other value).rawHeader key = h.rawHeader key := by
  unfold THttpResponseHeader.rawHeader THttpResponseHeader.setRawHeader
  simp only [List.find?_append, find_filter_ne _ _ _ hne]
  cases hfind : List.find? (fun kv => kv.1 == key) h.rawHeaders with
  | some kv => simp
  | none => simp [List.find?_cons, hne]

theorem sendfile_eq_false_iff (env : Env) (ims : String) (lastModified : QDateTime) :
    sendfile env ims lastModified = false ↔
      (ims.isEmpty = false ∧
        ∃ t, env.fromHttpDateTimeString ims = some t ∧ lastModified = some t) := by
  unfold sendfile
  cases hi : ims.isEmpty
  · cases hdt : env.fromHttpDateTimeString ims with
    | none => simp
    | some t =>
      simp
      constructor
      · intro h; exact h.symm
      · intro h; exact h.symm
  · simp

theorem rawHeader_static (env : Env) (h : THttpResponseHeader) (value contentType : String)
    (n : Nat) :
    (stampHeader env (contentHeader env 200 (h.setRawHeader "Last-Modified" value) contentType)
      n).rawHeader "Last-Modified" = value := by
  have h1 : ∀ x : THttpResponseHeader, (stampHeader env x n).rawHeader "Last-Modified"
      = x.rawHeader "Last-Modified" := by
    intro x
    unfold stampHeader
    have := rawHeader_setRawHeader_ne (x.setContentLength n) "Last-Modified" "Server"
      "TreeFrog server" (by decide)
    exact this
  have h2 : ∀ x : THttpResponseHeader, (contentHeader env 200 x contentType).rawHeader
      "Last-Modified" = x.rawHeader "Last-Modified" := by
    intro x
    unfold THttpResponseHeader.rawHeader
    rw [contentHeader_rawHeaders]
  rw [h1, h2, rawHeader_setRawHeader]

theorem value_of_not_contains {α : Type} [Inhabited α] (m : QMap α) (k : Int)
    (h : m.contains k = false) : m.value k = default := by
  induction m with
  | nil => rfl
  | cons kv rest ih =>
    rcases kv with ⟨k', v⟩
    simp only [QMap.contains, List.any_cons, Bool.or_eq_false_iff, beq_eq_false_iff_ne] at h
    simp only [QMap.value, h.1, if_false]
    exact ih (by simpa [QMap.contains] using h.2)

theorem connections_insert {α : Type} [Inhabited α] (f : α → Option Nat) (m : QMap α)
    (k : Int) (v : α) (h : f (m.value k) = none) :
    (connections f (m.insert k v)).Perm ((f v).toList ++ connections f m) := by
  induction m with
  | nil => cases hv : f v <;> simp [QMap.insert, connections, hv]
  | cons kv rest ih =>
    rcases kv with ⟨k', v'⟩
    unfold QMap.insert
    by_cases h1 : k < k'
    · simp only [h1, if_true]
      cases hv : f v <;> simp [connections, List.filterMap_cons, hv]
    · by_cases h2 : k = k'
      · subst h2
        simp only [QMap.value, if_true] at h
        simp only [h1, if_false, if_true]
        cases hv : f v <;> simp [connections, List.filterMap_cons, hv, h]
      · have h3 : ¬ k' = k := fun e => h2 e.symm
        simp only [QMap.value, h3, if_false] at h
        simp only [h1, h2, if_false]
        have := ih h
        cases hv' : f v'
        · simpa [connections, List.filterMap_cons, hv'] using this
        · rename_i n
          have h4 : (connections f ((k', v') :: QMap.insert rest k v))
              = n :: connections f (QMap.insert rest k v) := by
            simp [connections, List.filterMap_cons, hv']
          have h5 : connections f ((k', v') :: rest) = n :: connections f rest := by
            simp [connections, List.filterMap_cons, hv']
          rw [h4, h5]
          exact (List.Perm.cons n this).trans (List.perm_middle.symm)

theorem connections_touch {α : Type} [Inhabited α] (f : α → Option Nat)
    (hf : f (default : α) = none) (m : QMap α) (k : Int) :
    (connections f (m.touch k)).Perm (connections f m) := by
  unfold QMap.touch
  cases hc : m.contains k
  · have hv := value_of_not_contains m k hc
    have := connections_insert f m k default (by rw [hv]; exact hf)
    simpa [hf] using this
  · simp

theorem acquiredSql_append (a b : List Event) :
    acquiredSql (a ++ b) = acquiredSql a ++ acquiredSql b := by
  simp [acquiredSql]

theorem acquiredKvs_append (a b : List Event) :
    acquiredKvs (a ++ b) = acquiredKvs a ++ acquiredKvs b := by
  simp [acquiredKvs]

theorem releasedSql_append (a b : List Event) :
    releasedSql (a ++ b) = releasedSql a ++ releasedSql b := by
  simp [releasedSql]

theorem releasedKvs_append (a b : List Event) :
    releasedKvs (a ++ b) = releasedKvs a ++ releasedKvs b := by
  simp [releasedKvs]

theorem dbInv_log {c : TActionContext} (h : DbInv c) (e : Event)
    (he : e.isPoolTraffic = false) : DbInv (c.log e) := by
  refine ⟨?_, ?_, ?_⟩
  · have : acquiredSql [e] = [] := by cases e <;> simp_all [acquiredSql, Event.isPoolTraffic]
    simpa [acquiredSql_append, this] using h.sql
  · have : acquiredKvs [e] = [] := by cases e <;> simp_all [acquiredKvs, Event.isPoolTraffic]
    simpa [acquiredKvs_append, this] using h.kvs
  · intro x hx
    simp only [TActionContext.log_trace, List.mem_append, List.mem_singleton] at hx
    rcases hx with hx | hx
    · exact h.pool x hx
    · subst hx
      cases x <;> simp_all [Event.isPool, Event.isPoolTraffic]

theorem getSqlDatabase_keeps (env : Env) (id : Int) (p : Except Fault QSqlDatabase) :
    (getSqlDatabase env id p).Keeps DbInv := by
  intro c h
  unfold getSqlDatabase
  by_cases ha : env.isSqlDatabaseAvailable = true
  · simp only [ha, Bool.not_true, Bool.false_eq_true, if_false]
    by_cases hid : id < 0 ∨ id ≥ env.sqlDatabaseSettingsCount
    · simp only [hid, if_true]
      exact h
    · simp only [hid, if_false]
      have ht := connections_touch QSqlDatabase.connection rfl c.sqlDatabases id
      cases hv : ((c.sqlDatabases.touch id).value id).isValid
      · simp only [Bool.not_false, if_true]
        cases p with
        | error f => exact ⟨ht.trans h.sql, h.kvs, h.pool⟩
        | ok db =>
          simp only
          have hnone : ((c.sqlDatabases.touch id).value id).connection = none := by
            simpa [QSqlDatabase.isValid] using hv
          have hins := connections_insert QSqlDatabase.connection (c.sqlDatabases.touch id) id db
            hnone
          have hbase : DbInv
              { c with
                sqlDatabases := (c.sqlDatabases.touch id).insert id db
                trace := c.trace ++ [.sqlDatabase id db] } := by
            refine ⟨?_, ?_, ?_⟩
            · simp only [acquiredSql_append]
              have h1 : acquiredSql [Event.sqlDatabase id db] = db.connection.toList := by
                cases hdb : db.connection <;> simp [acquiredSql, hdb]
              rw [h1]
              exact hins.trans (List.perm_append_comm.trans
                (List.Perm.append_right _ (ht.trans h.sql)))
            · simpa [acquiredKvs_append, acquiredKvs] using h.kvs
            · intro x hx
              simp only [List.mem_append, List.mem_singleton] at hx
              rcases hx with hx | hx
              · exact h.pool x hx
              · subst hx; rfl
          unfold beginTransaction
          split
          · exact dbInv_log hbase _ rfl
          · exact hbase
      · simp only [Bool.not_true, Bool.false_eq_true, if_false]
        exact ⟨ht.trans h.sql, h.kvs, h.pool⟩
  · simp only [ha, Bool.not_false, if_true]
    exact ⟨(connections_touch QSqlDatabase.connection rfl c.sqlDatabases 0).trans h.sql,
      h.kvs, h.pool⟩

theorem getKvsDatabase_keeps (type : Int) (p : Except Fault TKvsDatabase) :
    (getKvsDatabase type p).Keeps DbInv := by
  intro c h
  unfold getKvsDatabase
  simp only []
  have ht := connections_touch TKvsDatabase.connection rfl c.kvsDatabases type
  cases hv : ((c.kvsDatabases.touch type).value type).isValid
  · simp only [Bool.not_false, if_true]
    cases p with
    | error f => exact ⟨h.sql, ht.trans h.kvs, h.pool⟩
    | ok db =>
      simp only
      have hnone : ((c.kvsDatabases.touch type).value type).connection = none := by
        simpa [TKvsDatabase.isValid] using hv
      have hins := connections_insert TKvsDatabase.connection (c.kvsDatabases.touch type) type db
        hnone
      refine ⟨?_, ?_, ?_⟩
      · simpa [acquiredSql_append, acquiredSql] using h.sql
      · simp only [acquiredKvs_append]
        have h1 : acquiredKvs [Event.kvsDatabase type db] = db.connection.toList := by
          cases hdb : db.connection <;> simp [acquiredKvs, hdb]
        rw [h1]
        exact hins.trans (List.perm_append_comm.trans
          (List.Perm.append_right _ (ht.trans h.kvs)))
      · intro x hx
        simp only [List.mem_append, List.mem_singleton] at hx
        rcases hx with hx | hx
        · exact h.pool x hx
        · subst hx; rfl
  · simp only [Bool.not_true, Bool.false_eq_true, if_false]
    exact ⟨h.sql, ht.trans h.kvs, h.pool⟩

theorem runCalls_keeps (env : Env) (calls : List ContextCall) (c : TActionContext)
    (h : DbInv c) : DbInv (runCalls env calls c) := by
  induction calls generalizing c with
  | nil => exact h
  | cons call rest ih =>
    apply ih
    cases call with
    | sql id p => exact getSqlDatabase_keeps env id p c h
    | kvs t p => exact getKvsDatabase_keeps t p c h

theorem keeps_andThen {α β : Type} {P : TActionContext → Prop} {x : Act α} {f : α → Act β}
    (hx : x.Keeps P) (hf : ∀ a, (f a).Keeps P) : (andThen x f).Keeps P := by
  intro c h
  have h₁ := hx c h
  unfold andThen
  rcases hxc : x c with ⟨r, c'⟩
  rw [hxc] at h₁
  cases r with
  | error e => exact h₁
  | ok a => exact hf a c' h₁

theorem keeps_ret {α : Type} {P : TActionContext → Prop} (a : α) : (ret a).Keeps P :=
  fun _ h => h

theorem keeps_raise {α : Type} {P : TActionContext → Prop} (f : Fault) :
    (raise f : Act α).Keeps P := fun _ h => h

theorem keeps_answer {α : Type} {P : TActionContext → Prop} (r : Except Fault α) :
    (answer r).Keeps P := fun _ h => h

theorem keeps_current {P : TActionContext → Prop} : current.Keeps P := fun _ h => h

theorem keeps_ite {α : Type} {P : TActionContext → Prop} {p : Prop} [Decidable p]
    {x y : Act α} (hx : x.Keeps P) (hy : y.Keeps P) : (if p then x else y).Keeps P := by
  split
  · exact hx
  · exact hy

theorem keeps_emit {e : Event} (he : e.isPoolTraffic = false) : (emit e).Keeps DbInv :=
  fun _ h => dbInv_log h e he

theorem keeps_update {g : TActionContext → TActionContext}
    (hg : ∀ c, (g c).sqlDatabases = c.sqlDatabases ∧ (g c).kvsDatabases = c.kvsDatabases ∧
      (g c).trace = c.trace) : (update g).Keeps DbInv := by
  intro c h
  obtain ⟨h1, h2, h3⟩ := hg c
  exact ⟨by show (connections _ (g c).sqlDatabases).Perm (acquiredSql (g c).trace)
            rw [h1, h3]; exact h.sql,
    by show (connections _ (g c).kvsDatabases).Perm (acquiredKvs (g c).trace)
       rw [h2, h3]; exact h.kvs,
    by show ∀ e ∈ (g c).trace, e.isPool = false
       rw [h3]; exact h.pool⟩

theorem keeps_hook {α : Type} (env : Env) (h : Hook α) : (h.run env).Keeps DbInv :=
  fun c hc => runCalls_keeps env h.calls c hc

theorem keeps_writeResponse (env : Env) (header : THttpResponseHeader) (body : Body)
    (length : Nat) : (writeResponse env header body length).Keeps DbInv := by
  intro c h
  rw [writeResponse_apply]
  exact dbInv_log h (.writeResponse (stampHeader env header length) body)
    (by simp only [Event.isPoolTraffic])

set_option maxRecDepth 8000 in
theorem runController_keeps (env : Env) (request : THttpRequest) (method : HttpMethod)
    (rt : TRouting) (ctl : TActionController) :
    (runController env request method rt ctl).Keeps DbInv := by
  unfold runController prepare loadSession verifyAuthenticityToken prepareSession dispatch
    storeSession respond rollbackTransactions commitTransactions
  simp only [bind_def, pure_def]
  repeat (first
    | apply keeps_andThen
    | apply keeps_ite
    | exact keeps_hook _ _
    | exact keeps_writeResponse _ _ _ _
    | exact keeps_update (fun _ => ⟨rfl, rfl, rfl⟩)
    | exact keeps_ret _
    | exact keeps_raise _
    | exact keeps_answer _
    | exact keeps_emit rfl
    | intro _)

theorem serveStatic_keeps (env : Env) (request : THttpRequest) (method : HttpMethod)
    (path : String) : (serveStatic env request method path).Keeps DbInv := by
  unfold serveStatic writeResponseStatus writeResponseContent
  simp only [bind_def, pure_def]
  repeat (first
    | exact keeps_emit rfl
    | exact keeps_ret _
    | exact keeps_current
    | exact keeps_writeResponse _ _ _ _
    | exact keeps_update (fun _ => ⟨rfl, rfl, rfl⟩)
    | apply keeps_andThen
    | apply keeps_ite
    | intro _)

theorem executeTry_keeps (env : Env) (request : THttpRequest) :
    (executeTry env request).Keeps DbInv := by
  unfold executeTry
  simp only [bind_def, pure_def]
  refine keeps_andThen (keeps_update (fun _ => ⟨rfl, rfl, rfl⟩)) (fun _ => ?_)
  refine keeps_andThen (keeps_emit rfl) (fun _ => ?_)
  cases env.dispatcherObject (requestRouting env request).controller with
  | none => exact serveStatic_keeps env request _ _
  | some ctl => exact runController_keeps env request _ _ ctl

theorem executeCatch_keeps (env : Env) (f : Fault) : (executeCatch env f).Keeps DbInv := by
  cases f <;> simp only [executeCatch, bind_def, pure_def, writeResponseStatus,
    writeResponseContent]
  all_goals repeat (first
    | exact keeps_emit rfl
    | exact keeps_current
    | exact keeps_writeResponse _ _ _ _
    | exact keeps_update (fun _ => ⟨rfl, rfl, rfl⟩)
    | apply keeps_andThen
    | intro _)

theorem execute_keeps (env : Env) (request : THttpRequest) (c : TActionContext)
    (h : DbInv c) : DbInv (execute env request c).2 := by
  unfold execute
  simp only []
  have h₀ : DbInv (c.setResponseHeader default) := ⟨h.sql, h.kvs, h.pool⟩
  have h₁ : DbInv ((c.setResponseHeader default).log .accessLogOpen) :=
    dbInv_log h₀ .accessLogOpen rfl
  have h₂ := executeTry_keeps env request _ h₁
  rcases hx : executeTry env request ((c.setResponseHeader default).log .accessLogOpen)
    with ⟨r, c'⟩
  rw [hx] at h₂
  have h₃ : DbInv (recover env (r, c')) := by
    cases r with
    | ok u => exact h₂
    | error f => exact executeCatch_keeps env f c' h₂
  exact dbInv_log h₃ (.accessLogWrite _) rfl

theorem release_trace (c : TActionContext) :
    (release c).2.trace = c.trace ++ .rollbackTransactions :: teardownCalls c := by
  simp [release, releaseSqlDatabases, releaseKvsDatabases, rollbackTransactions, teardownCalls]

theorem release_maps (c : TActionContext) :
    (release c).2.sqlDatabases = [] ∧ (release c).2.kvsDatabases = [] ∧
    (release c).2.tempFiles = [] ∧ (release c).2.autoRemoveFiles = [] := by
  simp [release, releaseSqlDatabases, releaseKvsDatabases, rollbackTransactions]

theorem releasedSql_of_no_pool (tr : List Event) (h : ∀ e ∈ tr, e.isPool = false) :
    releasedSql tr = [] := by
  unfold releasedSql
  rw [List.filterMap_eq_nil_iff]
  intro e he
  have := h e he
  cases e <;> first | rfl | (simp only [Event.isPool] at this; cases this)

theorem releasedKvs_of_no_pool (tr : List Event) (h : ∀ e ∈ tr, e.isPool = false) :
    releasedKvs tr = [] := by
  unfold releasedKvs
  rw [List.filterMap_eq_nil_iff]
  intro e he
  have := h e he
  cases e <;> first | rfl | (simp only [Event.isPool] at this; cases this)

theorem filterMap_none {α β : Type} (l : List α) :
    List.filterMap (fun _ => (none : Option β)) l = [] := by
  induction l with
  | nil => rfl
  | cons a rest ih => simpa [List.filterMap_cons] using ih

theorem teardownCalls_read (c : TActionContext) :
    releasedSql (teardownCalls c) = connections QSqlDatabase.connection c.sqlDatabases ∧
    releasedKvs (teardownCalls c) = connections TKvsDatabase.connection c.kvsDatabases ∧
    acquiredSql (teardownCalls c) = [] ∧ acquiredKvs (teardownCalls c) = [] := by
  unfold teardownCalls
  refine ⟨?_, ?_, ?_, ?_⟩
  · simp [releasedSql, connections, List.filterMap_append, List.filterMap_map, Function.comp_def,
      filterMap_none]
  · simp [releasedKvs, connections, List.filterMap_append, List.filterMap_map, Function.comp_def,
      filterMap_none]
  · simp [acquiredSql, List.filterMap_append, List.filterMap_map, Function.comp_def,
      filterMap_none]
  · simp [acquiredKvs, List.filterMap_append, List.filterMap_map, Function.comp_def,
      filterMap_none]

theorem release_releasedOnce (c : TActionContext) (h : DbInv c) : ReleasedOnce (release c).2 := by
  obtain ⟨h1, h2, h3, h4⟩ := teardownCalls_read c
  obtain ⟨m1, m2, m3, m4⟩ := release_maps c
  refine ⟨?_, ?_, m1, m2, ?_⟩
  · rw [release_trace, releasedSql_append, acquiredSql_append,
      releasedSql_of_no_pool c.trace h.pool]
    have e1 : releasedSql (Event.rollbackTransactions :: teardownCalls c)
        = releasedSql (teardownCalls c) := by simp [releasedSql]
    have e2 : acquiredSql (Event.rollbackTransactions :: teardownCalls c)
        = acquiredSql (teardownCalls c) := by simp [acquiredSql]
    rw [e1, e2, h1, h3]
    simpa using h.sql
  · rw [release_trace, releasedKvs_append, acquiredKvs_append,
      releasedKvs_of_no_pool c.trace h.pool]
    have e1 : releasedKvs (Event.rollbackTransactions :: teardownCalls c)
        = releasedKvs (teardownCalls c) := by simp [releasedKvs]
    have e2 : acquiredKvs (Event.rollbackTransactions :: teardownCalls c)
        = acquiredKvs (teardownCalls c) := by simp [acquiredKvs]
    rw [e1, e2, h2, h4]
    simpa using h.kvs
  · rw [release_trace (release c).2]
    simp [teardownCalls, m1, m2, m3, m4]

theorem dbInv_init : DbInv TActionContext.init :=
  ⟨List.Perm.refl _, List.Perm.refl _, fun _ h => by cases h⟩

theorem precedes_of_no_q (p q : Event → Bool) (l : List Event) (h : ∀ e ∈ l, q e = false) :
    precedes p q l = true := by
  induction l with
  | nil => rfl
  | cons e rest ih =>
    have he := h e (List.mem_cons_self _ _)
    have hr := ih (fun x hx => h x (List.mem_cons_of_mem _ hx))
    simp [precedes, he, hr]

theorem precedes_of_no_p (p q : Event → Bool) (l : List Event) (h : ∀ e ∈ l, p e = false) :
    precedes p q l = true := by
  induction l with
  | nil => rfl
  | cons e rest ih =>
    have he := h e (List.mem_cons_self _ _)
    have hr := ih (fun x hx => h x (List.mem_cons_of_mem _ hx))
    have hall : rest.all (fun e' => !p e') = true := by
      rw [List.all_eq_true]
      intro x hx
      simp [h x (List.mem_cons_of_mem _ hx)]
    simp [precedes, he, hr, hall]

theorem precedes_append (p q : Event → Bool) (a b : List Event)
    (ha : precedes p q a = true) (hb : precedes p q b = true)
    (hab : (∀ e ∈ a, q e = false) ∨ (∀ e ∈ b, p e = false)) :
    precedes p q (a ++ b) = true := by
  induction a with
  | nil => simpa using hb
  | cons e rest ih =>
    simp only [precedes, List.all_cons, Bool.and_eq_true, Bool.or_eq_true,
      Bool.not_eq_true'] at ha
    obtain ⟨h1, h2⟩ := ha
    have hrest := ih h2 (by
      rcases hab with h | h
      · exact Or.inl (fun x hx => h x (List.mem_cons_of_mem _ hx))
      · exact Or.inr h)
    simp only [List.cons_append, precedes, List.all_cons, List.all_append, Bool.and_eq_true,
      Bool.or_eq_true, Bool.not_eq_true']
    refine ⟨?_, hrest⟩
    rcases h1 with h1 | h1
    · exact Or.inl h1
    · rcases hab with h | h
      · exact Or.inl (h e (List.mem_cons_self _ _))
      · right
        refine ⟨h1.1, ?_⟩
        have hb' : b.all (fun e' => !p e') = true := by
          rw [List.all_eq_true]
          intro x hx
          simp [h x hx]
        show (List.all (rest ++ b) fun e' => !p e') = true
        rw [List.all_append, h1.2, hb']
        rfl

theorem precedes_cons_neither (p q : Event → Bool) (e : Event) (l : List Event)
    (hp : p e = false) (hq : q e = false) : precedes p q (e :: l) = precedes p q l := by
  simp [precedes, hp, hq]

theorem catchTrail_kinds (env : Env) (f : Fault) :
    ∀ e ∈ catchTrail env f, e.isResolution = false ∧ e.isStore = false := by
  intro e he
  rcases catchTrail_mem env f e he with h | h
  · cases e <;> simp_all [Event.isWrite, Event.isResolution, Event.isStore]
  · subst h; exact ⟨rfl, rfl⟩

theorem respondTrail_kinds (env : Env) (ctl : TActionController) :
    ∀ e ∈ respondTrail env ctl ++ gcTrail env, e.isResolution = false ∧ e.isStore = false := by
  intro e he
  rcases List.mem_append.mp he with he | he
  · rcases respondTrail_mem env ctl e he with h | h
    · cases e <;> simp_all [Event.isWrite, Event.isResolution, Event.isStore]
    · subst h; exact ⟨rfl, rfl⟩
  · rcases gcTrail_mem env e he with h | h
    · cases e <;> simp_all [Event.isWrite, Event.isResolution, Event.isStore]
    · subst h; exact ⟨rfl, rfl⟩

theorem dispatchSummary_order (env : Env) (rt : TRouting) (ctl : TActionController)
    (s : TSession) :
    precedes Event.isResolution Event.isStore (dispatchSummary env rt ctl s).2 = true ∧
    ∀ e ∈ (dispatchSummary env rt ctl s).2, e.isWrite = false := by
  unfold dispatchSummary
  rcases ctl.preFilter.result with f | (_ | _) <;>
    simp [precedes, Event.isResolution, Event.isStore, Event.isWrite]
  rcases (ctl.invoke rt.action rt.params).result with f | (_ | _) <;>
    simp [precedes, Event.isResolution, Event.isStore, Event.isWrite]
  rcases ctl.postFilter.result with f | _ <;>
    simp [precedes, Event.isResolution, Event.isStore, Event.isWrite]
  cases ctl.sessionEnabled <;> cases ctl.rollbackRequested <;>
    simp [precedes, Event.isResolution, Event.isStore, Event.isWrite]
  all_goals (rcases env.storeSession s with f | (_ | _) <;>
    simp [precedes, Event.isResolution, Event.isStore, Event.isWrite])

theorem controllerTrail_order (env : Env) (request : THttpRequest) (ctl : TActionController) :
    precedes Event.isResolution Event.isStore (controllerTrail env request ctl) = true ∧
    precedes Event.isStore Event.isWrite (controllerTrail env request ctl) = true := by
  unfold controllerTrail
  rcases prepareOutcome env request ctl with f | s
  · exact ⟨precedes_of_no_p _ _ _ (fun e he => (catchTrail_kinds env f e he).1),
      precedes_of_no_p _ _ _ (fun e he => (catchTrail_kinds env f e he).2)⟩
  · obtain ⟨h1, h2⟩ := dispatchSummary_order env (requestRouting env request) ctl s
    simp only
    constructor
    · apply precedes_append _ _ _ _ h1
      · split
        · exact precedes_of_no_p _ _ _ (fun e he => (catchTrail_kinds env _ e he).1)
        · exact precedes_of_no_p _ _ _ (fun e he => (respondTrail_kinds env ctl e he).1)
      · right
        split
        · exact fun e he => (catchTrail_kinds env _ e he).1
        · exact fun e he => (respondTrail_kinds env ctl e he).1
    · apply precedes_append _ _ _ _ (precedes_of_no_q _ _ _ h2)
      · split
        · exact precedes_of_no_p _ _ _ (fun e he => (catchTrail_kinds env _ e he).2)
        · exact precedes_of_no_p _ _ _ (fun e he => (respondTrail_kinds env ctl e he).2)
      · left
        exact h2

theorem executeEvents_order (env : Env) (request : THttpRequest) (c : TActionContext) :
    precedes Event.isResolution Event.isStore (executeEvents env request c) = true ∧
    precedes Event.isStore Event.isWrite (executeEvents env request c) = true := by
  cases hd : env.dispatcherObject (requestRouting env request).controller with
  | none =>
    by_cases hm : request.method = .Get
    · obtain ⟨h, b, r, he⟩ := (executeEvents_static env request c hd).1 hm
      simp [he, precedes, Event.isResolution, Event.isStore, Event.isWrite]
    · obtain ⟨r, he⟩ := (executeEvents_static env request c hd).2 hm
      simp [he, precedes, Event.isResolution, Event.isStore, Event.isWrite]
  | some ctl =>
    obtain ⟨r, he⟩ := milestones_controller env request c ctl hd
    obtain ⟨h1, h2⟩ := controllerTrail_order env request ctl
    rw [← precedes_milestones Event.isResolution Event.isStore
        (by intro e; cases e <;> simp [Event.isResolution, Event.isQuiet])
        (by intro e; cases e <;> simp [Event.isStore, Event.isQuiet]),
      ← precedes_milestones Event.isStore Event.isWrite
        (by intro e; cases e <;> simp [Event.isStore, Event.isQuiet])
        (by intro e; cases e <;> simp [Event.isWrite, Event.isQuiet]), he]
    rw [precedes_cons_neither _ _ _ _ rfl rfl, precedes_cons_neither _ _ _ _ rfl rfl,
      precedes_cons_neither _ _ _ _ rfl rfl, precedes_cons_neither _ _ _ _ rfl rfl]
    exact ⟨precedes_append _ _ _ _ h1 (by simp [precedes, Event.isStore, Event.isResolution])
        (Or.inr (by simp [Event.isResolution])),
      precedes_append _ _ _ _ h2 (by simp [precedes, Event.isStore, Event.isWrite])
        (Or.inr (by simp [Event.isStore]))⟩

theorem precedes_cons_not_q (p q : Event → Bool) (e : Event) (l : List Event)
    (hq : q e = false) : precedes p q (e :: l) = precedes p q l := by
  simp [precedes, hq]

theorem teardownCalls_kinds (c : TActionContext) :
    ∀ e ∈ teardownCalls c, e.isResolution = false ∧ e.isStore = false ∧ e.isWrite = false := by
  intro e he
  simp only [teardownCalls, List.mem_append, List.mem_map] at he
  rcases he with ⟨_, _, rfl⟩ | ⟨_, _, rfl⟩ | ⟨_, _, rfl⟩ | ⟨_, _, rfl⟩ <;> exact ⟨rfl, rfl, rfl⟩

theorem handleRequest_trace (env : Env) (request : THttpRequest) :
    (handleRequest env request).trace =
      executeEvents env request TActionContext.init ++
        .rollbackTransactions :: teardownCalls (execute env request TActionContext.init).2 := by
  unfold handleRequest destroy
  rw [release_trace]
  rfl

/-- A byte count that fits in an `int` is logged as it is. -/
theorem narrowToInt_of_fits (n : Int) (h₁ : -2147483648 ≤ n) (h₂ : n < 2147483648) :
    narrowToInt n = n := by
  unfold narrowToInt
  omega

/-- A byte count of 2^31 is logged as -2^31. -/
theorem narrowToInt_wraps : narrowToInt 2147483648 = -2147483648 := by
  decide

/-- For every environment, the body that `writeResponse(304, header)` builds is
the status page, never the empty string: line 370 only looks for a file when
the status is 400 or more, and lines 377-383 fill in an empty body whatever the
status. -/
theorem statusBody_notModified (env : Env) :
    statusBody env 304
      = "<html><body>" ++ env.getResponseReasonPhrase 304 ++ " (304)</body></html>" ∧
    28 ≤ (statusBody env 304).length := by
  have he : ("" : String).isEmpty = true := by decide
  have h2 : (toString 304 : String) = "304" := by decide
  have h : statusBody env 304
      = "<html><body>" ++ env.getResponseReasonPhrase 304 ++ " (" ++ "304"
        ++ ")</body></html>" := by
    unfold statusBody
    simp only [show ¬ (304 ≥ 400) by decide, if_false, he, if_true, h2]
  refine ⟨?_, ?_⟩
  · rw [h]
    simp only [String.append_assoc]
    have : " (" ++ ("304" ++ ")</body></html>") = " (304)</body></html>" := by decide
    rw [this]
  · rw [h]
    simp only [String.length_append]
    have : ("<html><body>" : String).length = 12 := by decide
    have : (" (" : String).length = 2 := by decide
    have : ("304" : String).length = 3 := by decide
    have : (")</body></html>" : String).length = 15 := by decide
    omega

/-! ## The claims -/

/-- C1, counterexample to the claim as stated: in the example environment the
request `GET /failing/run` resolves to a controller, `preFilter()` returns
true and `invoke("run", [])` is called and returns true, yet `execute` calls
neither `commitTransactions()` nor `rollbackTransactions()`: `postFilter()`
(line 223) throws and control leaves the `try` block before line 225. -/
theorem C1_counterexample_post_filter_throws :
    (exampleEnv.dispatcherObject (requestRouting exampleEnv
      (exampleRequest .Get "/failing/run" "")).controller).isSome = true ∧
    Event.preFilter ∈ executeEvents exampleEnv (exampleRequest .Get "/failing/run" "")
      TActionContext.init ∧
    Event.invoke "run" [] ∈ executeEvents exampleEnv (exampleRequest .Get "/failing/run" "")
      TActionContext.init ∧
    (executeEvents exampleEnv (exampleRequest .Get "/failing/run" "")
      TActionContext.init).count .commitTransactions = 0 ∧
    (executeEvents exampleEnv (exampleRequest .Get "/failing/run" "")
      TActionContext.init).count .rollbackTransactions = 0 := by
  decide

/-- C1, amended: when the dispatcher returned the controller `ctl`, a run of
`execute` that reaches the call of `invoke(action, params)` (so `preFilter()`
returned true), in which `invoke` returns true and `postFilter()` returns
without throwing, calls exactly one of `commitTransactions()` and
`rollbackTransactions()` inside `execute`, and it calls
`rollbackTransactions()` if and only if `rollbackRequested()` is true. When
`preFilter()` returns false or `invoke` returns false, neither is called inside
`execute`. -/
theorem C1_commit_or_rollback_after_dispatch (env : Env) (request : THttpRequest)
    (c : TActionContext) (ctl : TActionController)
    (hd : env.dispatcherObject (requestRouting env request).controller = some ctl) :
    (Event.invoke (requestRouting env request).action (requestRouting env request).params
        ∈ executeEvents env request c →
      (ctl.invoke (requestRouting env request).action
        (requestRouting env request).params).result = .ok true →
      ctl.postFilter.result = .ok () →
        (executeEvents env request c).count .commitTransactions
          + (executeEvents env request c).count .rollbackTransactions = 1 ∧
        (Event.rollbackTransactions ∈ executeEvents env request c ↔
          ctl.rollbackRequested = true)) ∧
    ((ctl.preFilter.result = .ok false ∨
      (ctl.invoke (requestRouting env request).action
        (requestRouting env request).params).result = .ok false) →
        Event.commitTransactions ∉ executeEvents env request c ∧
        Event.rollbackTransactions ∉ executeEvents env request c) := by
  have hm := fun e hq h₁ h₂ h₃ => mem_executeEvents_controller env request c ctl hd e hq h₁ h₂ h₃
  have hcnt := fun e hq h₁ h₂ h₃ =>
    count_executeEvents_controller env request c ctl hd e hq h₁ h₂ h₃
  rw [hm (.invoke (requestRouting env request).action (requestRouting env request).params) rfl
      (by simp) (by simp) (by simp), hm .rollbackTransactions rfl (by simp) (by simp) (by simp),
    hm .commitTransactions rfl (by simp) (by simp) (by simp),
    hcnt .rollbackTransactions rfl (by simp) (by simp) (by simp),
    hcnt .commitTransactions rfl (by simp) (by simp) (by simp)]
  obtain ⟨h1, h2⟩ := resolution_controllerTrail env request ctl
  constructor
  · intro hinvoke hinv hpost
    obtain ⟨hs, hpre⟩ := (invoke_mem_controllerTrail env request ctl).1 hinvoke
    exact h1 hs hpre hinv hpost
  · intro h
    apply h2
    rintro ⟨_, hpre, hinv, _⟩
    rcases h with h | h
    · rw [hpre] at h; cases h
    · rw [hinv] at h; cases h

/-- C1, witness: the amended claim at the request `GET /users/show/5` of the
example environment, where the action is dispatched and no rollback is
requested. -/
theorem C1_commit_or_rollback_after_dispatch_witness :
    (executeEvents exampleEnv (exampleRequest .Get "/users/show/5" "")
        TActionContext.init).count .commitTransactions
      + (executeEvents exampleEnv (exampleRequest .Get "/users/show/5" "")
        TActionContext.init).count .rollbackTransactions = 1 ∧
    (Event.rollbackTransactions ∈ executeEvents exampleEnv
        (exampleRequest .Get "/users/show/5" "") TActionContext.init ↔
      usersController.rollbackRequested = true) :=
  (C1_commit_or_rollback_after_dispatch exampleEnv (exampleRequest .Get "/users/show/5" "")
    TActionContext.init usersController (by rfl)).1 (by decide) (by rfl) (by rfl)

/-- C2: for a request with method POST, PUT or DELETE that resolves to the
controller `ctl`, with CSRF protection enabled globally and by the controller,
an action outside the controller's exemption set, and `verifyRequest()`
returning false (the call is reached: the session lookup of lines 176-187, if
there is one, did not throw), the `try` block of `execute` ends with a
`SecurityException`; the run calls no pre-filter, no action, no post-filter, no
commit, no rollback and no session store, writes no response, and closes the
HTTP socket. -/
theorem C2_csrf_failure_aborts_pipeline (env : Env) (request : THttpRequest)
    (c : TActionContext) (ctl : TActionController)
    (hd : env.dispatcherObject (requestRouting env request).controller = some ctl)
    (hmethod : request.method = .Post ∨ request.method = .Put ∨ request.method = .Delete)
    (hglobal : env.enableCsrfProtectionModule = true)
    (hopt : ctl.csrfProtectionEnabled = true)
    (hexempt : (requestRouting env request).action ∉ ctl.exceptionActionsOfCsrfProtection)
    (hsession : ctl.sessionEnabled = true → (request.cookie env.sessionName).isEmpty = false →
      ∃ s, env.findSession (request.cookie env.sessionName) = .ok s)
    (hverify : ctl.verifyRequest request = .ok false) :
    (executeTry env request c).1 = .error .security ∧
    Event.preFilter ∉ executeEvents env request c ∧
    (∀ a p, Event.invoke a p ∉ executeEvents env request c) ∧
    Event.postFilter ∉ executeEvents env request c ∧
    Event.commitTransactions ∉ executeEvents env request c ∧
    Event.rollbackTransactions ∉ executeEvents env request c ∧
    (∀ s, Event.sessionStore s ∉ executeEvents env request c) ∧
    (∀ h b, Event.writeResponse h b ∉ executeEvents env request c) ∧
    Event.closeHttpSocket ∈ executeEvents env request c := by
  have hp := prepare_security env request (requestRouting env request) ctl hmethod hglobal hopt
    hexempt hsession hverify
  have htrail : controllerTrail env request ctl = [.closeHttpSocket] := by
    simp [controllerTrail, prepareOutcome, hp, catchTrail]
  have hm := fun e hq h₁ h₂ h₃ =>
    mem_executeEvents_controller env request c ctl hd e hq h₁ h₂ h₃
  refine ⟨?_, ?_, ?_, ?_, ?_, ?_, ?_, ?_, ?_⟩
  · unfold executeTry
    simp only [bind_def, pure_def, andThen_update, andThen_emit, hd, runController]
    rw [andThen_apply]
    have := hp ((c.setLogHead (some env.currentDateTime)
      (request.headerMethod ++ " " ++ request.path ++ " HTTP/" ++ toString request.majorVersion
        ++ "." ++ toString request.minorVersion)
      (if env.listenPort > 0 then request.clientAddress else "(unix)")).log
      (Event.createController (requestRouting env request).controller))
    revert this
    rcases prepare env request request.method (requestRouting env request) ctl _ with ⟨r, c'⟩
    rintro rfl
    rfl
  · rw [hm .preFilter rfl (by simp) (by simp) (by simp), htrail]; simp
  · intro a p
    rw [hm (.invoke a p) rfl (by simp) (by simp) (by simp), htrail]; simp
  · rw [hm .postFilter rfl (by simp) (by simp) (by simp), htrail]; simp
  · rw [hm .commitTransactions rfl (by simp) (by simp) (by simp), htrail]; simp
  · rw [hm .rollbackTransactions rfl (by simp) (by simp) (by simp), htrail]; simp
  · intro s
    rw [hm (.sessionStore s) rfl (by simp) (by simp) (by simp), htrail]; simp
  · intro h b
    rw [hm (.writeResponse h b) rfl (by simp) (by simp) (by simp), htrail]; simp
  · rw [hm .closeHttpSocket rfl (by simp) (by simp) (by simp), htrail]; simp

/-- C2, witness: the claim at the request `POST /users/show/5` of the example
environment, whose controller rejects the token. -/
theorem C2_csrf_failure_aborts_pipeline_witness :
    (executeTry exampleEnv (exampleRequest .Post "/users/show/5" "") TActionContext.init).1
      = .error .security ∧
    (∀ h b, Event.writeResponse h b ∉ executeEvents exampleEnv
      (exampleRequest .Post "/users/show/5" "") TActionContext.init) ∧
    Event.closeHttpSocket ∈ executeEvents exampleEnv
      (exampleRequest .Post "/users/show/5" "") TActionContext.init :=
  have h := C2_csrf_failure_aborts_pipeline exampleEnv
    (exampleRequest .Post "/users/show/5" "") TActionContext.init usersController (by rfl)
    (Or.inl rfl) rfl rfl (by decide) (fun _ hc => absurd hc (by decide)) rfl
  ⟨h.1, h.2.2.2.2.2.2.2.1, h.2.2.2.2.2.2.2.2⟩

/-- C3, counterexample to the claim as stated: in the example environment the
request `GET /failing/run` resolves to a controller with sessions enabled,
`preFilter()` returns true and `invoke("run", [])` is called and returns true,
yet the session store is never called, because `postFilter()` throws. -/
theorem C3_counterexample_post_filter_throws :
    failingController.sessionEnabled = true ∧
    Event.preFilter ∈ executeEvents exampleEnv (exampleRequest .Get "/failing/run" "")
      TActionContext.init ∧
    Event.invoke "run" [] ∈ executeEvents exampleEnv (exampleRequest .Get "/failing/run" "")
      TActionContext.init ∧
    (executeEvents exampleEnv (exampleRequest .Get "/failing/run" "")
      TActionContext.init).countP Event.isStore = 0 := by
  decide

/-- C3, amended: in one run of `execute` the session store
(`TSessionManager::store`) is called at most once, and it is called if and
only if a controller was obtained, sessions are enabled for it, the run reaches
the call of `invoke(action, params)` (so `preFilter()` returned true), `invoke`
returns true and `postFilter()` returns without throwing. The condition does
not mention `rollbackRequested()`: whether commit or rollback was chosen makes
no difference. -/
theorem C3_session_store_iff_dispatched (env : Env) (request : THttpRequest)
    (c : TActionContext) :
    (executeEvents env request c).countP Event.isStore ≤ 1 ∧
    ((∃ s, Event.sessionStore s ∈ executeEvents env request c) ↔
      ∃ ctl, env.dispatcherObject (requestRouting env request).controller = some ctl ∧
        ctl.sessionEnabled = true ∧
        Event.invoke (requestRouting env request).action (requestRouting env request).params
          ∈ executeEvents env request c ∧
        (ctl.invoke (requestRouting env request).action
          (requestRouting env request).params).result = .ok true ∧
        ctl.postFilter.result = .ok ()) := by
  cases hd : env.dispatcherObject (requestRouting env request).controller with
  | none =>
    by_cases hm : request.method = .Get
    · obtain ⟨h, b, r, he⟩ := (executeEvents_static env request c hd).1 hm
      simp [he, Event.isStore]
    · obtain ⟨r, he⟩ := (executeEvents_static env request c hd).2 hm
      simp [he, Event.isStore]
  | some ctl =>
    have hm := fun e hq h₁ h₂ h₃ =>
      mem_executeEvents_controller env request c ctl hd e hq h₁ h₂ h₃
    obtain ⟨h1, h2⟩ := store_controllerTrail env request ctl
    constructor
    · rw [countP_executeEvents_controller env request c ctl hd _
        (by intro e; cases e <;> simp [Event.isStore, Event.isQuiet]) rfl (fun _ => rfl)
        (fun _ => rfl)]
      exact h1
    · have hs : (∃ s, Event.sessionStore s ∈ executeEvents env request c) ↔
          ∃ s, Event.sessionStore s ∈ controllerTrail env request ctl := by
        constructor <;> rintro ⟨s, h⟩ <;> refine ⟨s, ?_⟩
        · exact (hm (.sessionStore s) rfl (by simp) (by simp) (by simp)).1 h
        · exact (hm (.sessionStore s) rfl (by simp) (by simp) (by simp)).2 h
      rw [hs, h2, hm (.invoke (requestRouting env request).action
        (requestRouting env request).params) rfl (by simp) (by simp) (by simp),
        invoke_mem_controllerTrail]
      constructor
      · rintro ⟨hp, hpre, hinv, hpost, hse⟩
        exact ⟨ctl, rfl, hse, ⟨hp, hpre⟩, hinv, hpost⟩
      · rintro ⟨ctl', hc, hse, ⟨hp, hpre⟩, hinv, hpost⟩
        cases hc
        exact ⟨hp, hpre, hinv, hpost, hse⟩

/-- C4: for every request, whatever the hooks of the controller ask of the
pools and whether or not the request faulted, and likewise for every sequence
of `getSqlDatabase` / `getKvsDatabase` calls made on a fresh context: after
`release()` the SQL connections handed to `TSqlDatabasePool2::pool` are the SQL
connections obtained from `TSqlDatabasePool2::database`, each as many times as
it was obtained, the same holds for the KVS pool, both maps are empty, and a
second `release()` adds only its `rollbackTransactions()` call to the trace. -/
theorem C4_pooled_connections_released_once (env : Env) :
    (∀ request, ReleasedOnce (handleRequest env request)) ∧
    (∀ calls, ReleasedOnce (release (runCalls env calls TActionContext.init)).2) := by
  constructor
  · intro request
    exact release_releasedOnce _ (execute_keeps env request _ dbInv_init)
  · intro calls
    exact release_releasedOnce _ (runCalls_keeps env calls _ dbInv_init)

/-- C5: when no controller is obtained and the method is GET, `execute` writes
one response and then the access log, and the logged status is the status of
the response. If the target under the public root is a readable file, the
status is 304 exactly when the `If-Modified-Since` header is not empty, parses
to a valid timestamp and that timestamp equals the file's last-modified
timestamp; in every other case the status is 200, the body is the file, the
content length is the file size and the `Last-Modified` header carries the
file's last-modified timestamp. If the target is not a readable file the
status is 404. -/
theorem C5_static_file_conditional_get (env : Env) (request : THttpRequest) (c : TActionContext)
    (hd : env.dispatcherObject (requestRouting env request).controller = none)
    (hget : request.method = .Get) :
    ∃ header body record,
      executeEvents env request c =
        [.accessLogOpen, .createController (requestRouting env request).controller,
          .writeResponse header body, .accessLogWrite record] ∧
      record.statusCode = header.statusCode ∧
      ((env.fileInfo (env.publicPath ++ (decodedPath env request).drop 1)).isFile = true ∧
        (env.fileInfo (env.publicPath ++ (decodedPath env request).drop 1)).isReadable = true →
        (header.statusCode = 304 ↔
          ((request.rawHeader "If-Modified-Since").isEmpty = false ∧
            ∃ t, env.fromHttpDateTimeString (request.rawHeader "If-Modified-Since") = some t ∧
              (env.fileInfo (env.publicPath ++ (decodedPath env request).drop 1)).lastModified
                = some t)) ∧
        (header.statusCode ≠ 304 →
          header.statusCode = 200 ∧
          body = .file (env.publicPath ++ (decodedPath env request).drop 1) ∧
          header.contentLength
            = (env.fileInfo (env.publicPath ++ (decodedPath env request).drop 1)).size ∧
          header.rawHeader "Last-Modified" = env.toHttpDateTimeString
            (env.fileInfo (env.publicPath ++ (decodedPath env request).drop 1)).lastModified)) ∧
      (¬ ((env.fileInfo (env.publicPath ++ (decodedPath env request).drop 1)).isFile = true ∧
        (env.fileInfo (env.publicPath ++ (decodedPath env request).drop 1)).isReadable = true) →
        header.statusCode = 404) := by
  rw [executeEvents_eq, hd]
  simp only [serveStatic, bind_def, pure_def, writeResponseStatus, writeResponseContent]
  generalize env.fileInfo (env.publicPath ++ (decodedPath env request).drop 1) = fi
  generalize request.rawHeader "If-Modified-Since" = ims
  have hsf := sendfile_eq_false_iff env ims fi.lastModified
  generalize hS : recover env _ = S
  by_cases hf : fi.isFile = true ∧ fi.isReadable = true
  · cases hs : sendfile env ims fi.lastModified
    · have ht : S.trace = [.accessLogOpen,
          .createController (requestRouting env request).controller,
          .writeResponse (stampHeader env (contentHeader env 304 default "text/html")
            (statusBody env 304).length) (.buffer (statusBody env 304))] := by
        rw [← hS]; simp [hget, hf, hs, recover, atDispatch]
      have hc : S.accessLogger.statusCode = 304 := by
        rw [← hS]; simp [hget, hf, hs, recover, atDispatch]
      refine ⟨_, _, S.accessLogger, by rw [ht]; rfl, by rw [hc]; simp, ?_, ?_⟩
      · intro _
        rw [hs] at hsf
        simp only [true_iff] at hsf
        simp [hsf]
      · intro h; exact absurd hf h
    · have ht : S.trace = [.accessLogOpen,
          .createController (requestRouting env request).controller,
          .writeResponse (stampHeader env (contentHeader env 200
            ((default : THttpResponseHeader).setRawHeader "Last-Modified"
              (env.toHttpDateTimeString fi.lastModified))
            (env.internetMediaType fi.suffix)) fi.size)
            (.file (env.publicPath ++ (decodedPath env request).drop 1))] := by
        rw [← hS]; simp [hget, hf, hs, recover, atDispatch]
      have hc : S.accessLogger.statusCode = 200 := by
        rw [← hS]; simp [hget, hf, hs, recover, atDispatch]
      refine ⟨_, _, S.accessLogger, by rw [ht]; rfl, by rw [hc]; simp, ?_, ?_⟩
      · intro _
        rw [hs] at hsf
        simp only [Bool.true_eq_false, false_iff] at hsf
        refine ⟨?_, ?_⟩
        · simp only [stampHeader_statusCode, contentHeader_statusCode]
          constructor
          · intro h; omega
          · intro h; exact absurd h hsf
        · intro _
          exact ⟨by simp, rfl, by simp, rawHeader_static env _ _ _ _⟩
      · intro h; exact absurd hf h
  · have ht : S.trace = [.accessLogOpen,
        .createController (requestRouting env request).controller,
        .writeResponse (stampHeader env (contentHeader env 404 default "text/html")
          (statusBody env 404).length) (.buffer (statusBody env 404))] := by
      rw [← hS]; simp [hget, hf, recover, atDispatch]
    have hc : S.accessLogger.statusCode = 404 := by
      rw [← hS]; simp [hget, hf, recover, atDispatch]
    refine ⟨_, _, S.accessLogger, by rw [ht]; rfl, by rw [hc]; simp, ?_, ?_⟩
    · intro h; exact absurd h hf
    · intro _; simp

/-- C5, witness: the claim at the request `GET /index.html` of the example
environment with an `If-Modified-Since` header older than the file. -/
theorem C5_static_file_conditional_get_witness :
    ∃ header body record,
      executeEvents exampleEnv (exampleRequest .Get "/index.html" "t999") TActionContext.init =
        [.accessLogOpen,
          .createController (requestRouting exampleEnv
            (exampleRequest .Get "/index.html" "t999")).controller,
          .writeResponse header body, .accessLogWrite record] ∧
      record.statusCode = header.statusCode :=
  let ⟨header, body, record, h₁, h₂, _⟩ := C5_static_file_conditional_get exampleEnv
    (exampleRequest .Get "/index.html" "t999") TActionContext.init (by rfl) (by rfl)
  ⟨header, body, record, h₁, h₂⟩

/-- C6, the code at the failing input: the example environment serves
`GET /index.html` with an `If-Modified-Since` header equal to the file's
last-modified timestamp. The response has status 304, and its body is the
44-byte page built by `writeResponse(statusCode, header)` (lines 377-383), with
content length 44: the body is not empty. -/
theorem C6_not_modified_response_carries_a_body :
    executeEvents exampleEnv (exampleRequest .Get "/index.html" "t1000") TActionContext.init =
      [.accessLogOpen, .createController "index.htmlcontroller",
        .writeResponse
          ⟨304, "Not Modified", "text/html", 44, [("Server", "TreeFrog server")], some 5000⟩
          (.buffer "<html><body>Not Modified (304)</body></html>"),
        .accessLogWrite ⟨some 5000, "GET /index.html HTTP/1.1", "127.0.0.1", 304, 44⟩] := by
  decide

/-- C7, counterexample to the claim as stated: with no route and direct view
rendering off, the segment list `["Users"]` has a first segment that is not
empty and is not `application`, yet the controller name is
`userscontroller`, not `Users` followed by `controller`: line 157 lower-cases
the segment. -/
theorem C7_counterexample_uppercase_segment :
    (exampleEnv.findRouting .Get ["Users"]).isEmpty = true ∧
    directViewRenderMode exampleEnv = false ∧
    "Users" ≠ "" ∧ "Users" ≠ "application" ∧
    routing exampleEnv .Get ["Users"] ≠ ⟨"Users" ++ "controller", "index", []⟩ ∧
    routing exampleEnv .Get ["Users"] = ⟨"userscontroller", "index", []⟩ := by
  decide

/-- C7, amended: with direct view rendering off, for every list of path
segments for which the route resolver returns the empty routing and whose
first segment, converted to Latin-1 and lower-cased, is neither empty nor
`application`, the routing decision is: controller = that lower-cased segment
followed by `controller`, action = the second segment converted to Latin-1, or
`index` when there is none, params = the segments after the second. In
particular `users/show/5` gives `(userscontroller, show, ["5"])` and `users`
gives `(userscontroller, index, [])`. -/
theorem C7_default_url_routing (env : Env) (method : HttpMethod)
    (hdirect : env.directViewRenderMode = false) :
    (∀ components : List String,
      (env.findRouting method components).isEmpty = true →
      toLower (toLatin1 (components.getD 0 "")) ≠ "" →
      toLower (toLatin1 (components.getD 0 "")) ≠ "application" →
      routing env method components =
        ⟨toLower (toLatin1 (components.getD 0 "")) ++ "controller",
          toLatin1 (components.getD 1 "index"), components.drop 2⟩) ∧
    ((env.findRouting method ["users", "show", "5"]).isEmpty = true →
      routing env method ["users", "show", "5"] = ⟨"userscontroller", "show", ["5"]⟩) ∧
    ((env.findRouting method ["users"]).isEmpty = true →
      routing env method ["users"] = ⟨"userscontroller", "index", []⟩) := by
  have key : ∀ components : List String,
      (env.findRouting method components).isEmpty = true →
      toLower (toLatin1 (components.getD 0 "")) ≠ "" →
      toLower (toLatin1 (components.getD 0 "")) ≠ "application" →
      routing env method components =
        ⟨toLower (toLatin1 (components.getD 0 "")) ++ "controller",
          toLatin1 (components.getD 1 "index"), components.drop 2⟩ := by
    intro components hroute hne hres
    have hne' : (toLower (toLatin1 (components.getD 0 ""))).isEmpty = false := by
      cases h : (toLower (toLatin1 (components.getD 0 ""))).isEmpty
      · rfl
      · exact absurd ((String.isEmpty_iff _).1 h) hne
    unfold routing directViewRenderMode
    simp only [hroute, hdirect, if_true, Bool.false_eq_true, if_false, hne', Bool.not_false,
      bne_iff_ne, ne_eq, hres, not_false_eq_true, TRouting.setRouting]
  refine ⟨key, ?_, ?_⟩
  · intro h
    rw [key _ h (by decide) (by decide)]
    decide
  · intro h
    rw [key _ h (by decide) (by decide)]
    decide

/-- C7, witness: the two examples of the claim in the example environment. -/
theorem C7_default_url_routing_witness :
    routing exampleEnv .Get ["users", "show", "5"] = ⟨"userscontroller", "show", ["5"]⟩ ∧
    routing exampleEnv .Get ["users"] = ⟨"userscontroller", "index", []⟩ :=
  ⟨(C7_default_url_routing exampleEnv .Get rfl).2.1 (by decide),
    (C7_default_url_routing exampleEnv .Get rfl).2.2 (by decide)⟩

/-- C8, counterexample to the claim as stated: in an environment whose route
table has a route for `/application/index`, the first path segment is
`application`, the routing decision is not empty, the dispatcher returns a
controller and its action is invoked. -/
theorem C8_counterexample_explicit_route :
    (routedEnv.splitPath (decodedPath routedEnv
      (exampleRequest .Get "/application/index" ""))).getD 0 "" = "application" ∧
    (requestRouting routedEnv (exampleRequest .Get "/application/index" "")).isEmpty = false ∧
    (routedEnv.dispatcherObject (requestRouting routedEnv
      (exampleRequest .Get "/application/index" "")).controller).isSome = true ∧
    Event.invoke "index" [] ∈ executeEvents routedEnv
      (exampleRequest .Get "/application/index" "") TActionContext.init := by
  decide

/-- C8, amended: when the route resolver returns the empty routing, direct
view rendering is off and the first path segment, converted to Latin-1 and
lower-cased, is `application`, the routing decision handed to the dispatcher
is empty (it names no controller); and if the dispatcher creates no controller
for the empty name, the request takes the no-controller path: after the
construction of the dispatcher the run only writes a response and the access
log. -/
theorem C8_reserved_name_without_route (env : Env) (request : THttpRequest)
    (c : TActionContext)
    (hroute : (env.findRouting request.method
      (env.splitPath (decodedPath env request))).isEmpty = true)
    (hdirect : env.directViewRenderMode = false)
    (hseg : toLower (toLatin1 ((env.splitPath (decodedPath env request)).getD 0 ""))
      = "application") :
    (requestRouting env request).isEmpty = true ∧
    (requestRouting env request).controller = "" ∧
    ((env.dispatcherObject "").isNone = true →
      ∃ rest, executeEvents env request c = .accessLogOpen :: .createController "" :: rest ∧
        ∀ e ∈ rest, e.isWrite = true ∨ e.isLogWrite = true) := by
  have hrt : requestRouting env request
      = env.findRouting request.method (env.splitPath (decodedPath env request)) := by
    unfold requestRouting routing directViewRenderMode
    simp only [hroute, hdirect, if_true, Bool.false_eq_true, if_false, hseg, bne_self_eq_false]
    split <;> rfl
  have hempty : (requestRouting env request).isEmpty = true := by rw [hrt]; exact hroute
  have hname : (requestRouting env request).controller = "" :=
    (String.isEmpty_iff _).1 hempty
  refine ⟨hempty, hname, ?_⟩
  intro hnone
  have hd : env.dispatcherObject (requestRouting env request).controller = none := by
    rw [hname]; exact Option.isNone_iff_eq_none.1 hnone
  by_cases hm : request.method = .Get
  · obtain ⟨h, b, r, he⟩ := (executeEvents_static env request c hd).1 hm
    rw [hname] at he
    refine ⟨_, he, ?_⟩
    intro e hmem
    simp only [List.mem_cons, List.mem_singleton, List.not_mem_nil, or_false] at hmem
    rcases hmem with rfl | rfl
    · exact Or.inl rfl
    · exact Or.inr rfl
  · obtain ⟨r, he⟩ := (executeEvents_static env request c hd).2 hm
    rw [hname] at he
    refine ⟨_, he, ?_⟩
    intro e hmem
    simp only [List.mem_singleton] at hmem
    subst hmem
    exact Or.inr rfl

/-- C8, witness: the amended claim at the request `GET /application/index` of
the example environment, which has no route. -/
theorem C8_reserved_name_without_route_witness :
    (requestRouting exampleEnv (exampleRequest .Get "/application/index" "")).isEmpty = true ∧
    (requestRouting exampleEnv (exampleRequest .Get "/application/index" "")).controller = "" ∧
    ∃ rest, executeEvents exampleEnv (exampleRequest .Get "/application/index" "")
        TActionContext.init = .accessLogOpen :: .createController "" :: rest ∧
      ∀ e ∈ rest, e.isWrite = true ∨ e.isLogWrite = true :=
  have h := C8_reserved_name_without_route exampleEnv
    (exampleRequest .Get "/application/index" "") TActionContext.init (by decide) (by decide)
    (by decide)
  ⟨h.1, h.2.1, h.2.2 (by decide)⟩

/-- C9, counterexample to the claim as stated: in the example environment the
run for `POST /users/show/5` (the authenticity token is rejected) and the run
for `POST /nothing` (no controller, method not GET) write no response; and
when `collectGarbage()` throws a `ClientErrorException`, the run for
`GET /users/show/5` writes two responses, the controller's and the error page
of the handler. -/
theorem C9_counterexample_zero_or_two_responses :
    (executeEvents exampleEnv (exampleRequest .Post "/users/show/5" "")
      TActionContext.init).countP Event.isWrite = 0 ∧
    (executeEvents exampleEnv (exampleRequest .Post "/nothing" "")
      TActionContext.init).countP Event.isWrite = 0 ∧
    (executeEvents brokenGcEnv (exampleRequest .Get "/users/show/5" "")
      TActionContext.init).countP Event.isWrite = 2 := by
  decide

/-- C9, amended: for every behaviour of the collaborators, one run of
`execute` writes exactly one access-log record, as its last call, and at most
two responses. It writes two responses exactly when `collectGarbage()` (line
267) is called, which happens right after the response of line 262, and throws
a `ClientErrorException`, whose handler writes an error page. It writes no
response exactly when a handler other than the one for `ClientErrorException`
ran (the HTTP socket is closed) without `collectGarbage()` having been called,
or when no controller was obtained and the method is not GET. In every other
run it writes exactly one response. -/
theorem C9_one_log_record_at_most_two_responses (env : Env) (request : THttpRequest)
    (c : TActionContext) :
    (executeEvents env request c).countP Event.isLogWrite = 1 ∧
    (∃ events record, executeEvents env request c = events ++ [.accessLogWrite record]) ∧
    (executeEvents env request c).countP Event.isWrite ≤ 2 ∧
    ((executeEvents env request c).countP Event.isWrite = 2 ↔
      .collectGarbage ∈ executeEvents env request c ∧
        ∃ statusCode, env.collectGarbage = .error (.clientError statusCode)) ∧
    ((executeEvents env request c).countP Event.isWrite = 0 ↔
      ((.closeHttpSocket ∈ executeEvents env request c ∧
          .collectGarbage ∉ executeEvents env request c) ∨
        (env.dispatcherObject (requestRouting env request).controller).isNone = true ∧
          request.method ≠ .Get)) := by
  refine ⟨?_, executeEvents_last env request c, ?_⟩
  · cases hd : env.dispatcherObject (requestRouting env request).controller with
    | none =>
      by_cases hm : request.method = .Get
      · obtain ⟨h, b, r, he⟩ := (executeEvents_static env request c hd).1 hm
        simp [he, Event.isLogWrite]
      · obtain ⟨r, he⟩ := (executeEvents_static env request c hd).2 hm
        simp [he, Event.isLogWrite]
    | some ctl =>
      obtain ⟨r, he⟩ := milestones_controller env request c ctl hd
      rw [countP_milestones _ (by intro e; cases e <;> simp [Event.isLogWrite, Event.isQuiet]), he]
      simp [List.countP_cons, List.countP_append, controllerTrail_isLogWrite, Event.isLogWrite]
  · cases hd : env.dispatcherObject (requestRouting env request).controller with
    | none =>
      by_cases hm : request.method = .Get
      · obtain ⟨h, b, r, he⟩ := (executeEvents_static env request c hd).1 hm
        simp [he, Event.isWrite, hm]
      · obtain ⟨r, he⟩ := (executeEvents_static env request c hd).2 hm
        simp [he, Event.isWrite, hm]
    | some ctl =>
      have hcount := countP_executeEvents_controller env request c ctl hd Event.isWrite
        (by intro e; cases e <;> simp [Event.isWrite, Event.isQuiet]) rfl (fun _ => rfl)
        (fun _ => rfl)
      have hclose := mem_executeEvents_controller env request c ctl hd .closeHttpSocket rfl
        (by simp) (by simp) (by simp)
      have hgc := mem_executeEvents_controller env request c ctl hd .collectGarbage rfl
        (by simp) (by simp) (by simp)
      obtain ⟨h1, h2, h3⟩ := controllerTrail_writes env request ctl
      rw [hcount, hclose, hgc]
      refine ⟨h1, h2, ?_⟩
      rw [h3]
      simp

/-- C10, counterexample to the claim as stated: in the example environment
the request `GET /users/show/5` stores the session and later hands its SQL
connection back to the pool, so it is false that every release of a pooled
connection comes before the session store. -/
theorem C10_counterexample_release_after_session_store :
    Event.sessionStore ⟨"newid"⟩ ∈
      (handleRequest exampleEnv (exampleRequest .Get "/users/show/5" "")).trace ∧
    Event.sqlPool ⟨some 7, true⟩ ∈
      (handleRequest exampleEnv (exampleRequest .Get "/users/show/5" "")).trace ∧
    precedes Event.isPool Event.isStore
      (handleRequest exampleEnv (exampleRequest .Get "/users/show/5" "")).trace = false := by
  decide

/-- C10, amended: the trace of one request is the trace of `execute` followed
by the teardown, which starts with `rollbackTransactions()` and then hands
the pooled connections back. Inside `execute` no connection is released and
the commit or rollback comes before the session store. Over the whole
request the session store comes before the response is written, and every
commit or rollback, the session store and the response all come before the
pooled connections are released. -/
theorem C10_order_within_one_request (env : Env) (request : THttpRequest) :
    (handleRequest env request).trace =
      executeEvents env request TActionContext.init ++
        .rollbackTransactions :: teardownCalls (execute env request TActionContext.init).2 ∧
    (∀ e ∈ executeEvents env request TActionContext.init, e.isPool = false) ∧
    precedes Event.isResolution Event.isStore (executeEvents env request TActionContext.init)
      = true ∧
    precedes Event.isStore Event.isWrite (handleRequest env request).trace = true ∧
    precedes Event.isResolution Event.isPool (handleRequest env request).trace = true ∧
    precedes Event.isStore Event.isPool (handleRequest env request).trace = true ∧
    precedes Event.isWrite Event.isPool (handleRequest env request).trace = true := by
  have hpool : ∀ e ∈ executeEvents env request TActionContext.init, e.isPool = false :=
    (execute_keeps env request _ dbInv_init).pool
  obtain ⟨ho1, ho2⟩ := executeEvents_order env request TActionContext.init
  have hk := teardownCalls_kinds (execute env request TActionContext.init).2
  have hk' : ∀ e ∈ Event.rollbackTransactions ::
      teardownCalls (execute env request TActionContext.init).2,
      e.isStore = false ∧ e.isWrite = false := by
    intro e he
    rcases List.mem_cons.1 he with h | h
    · subst h; exact ⟨rfl, rfl⟩
    · exact ⟨(hk e h).2.1, (hk e h).2.2⟩
  refine ⟨handleRequest_trace env request, hpool, ho1, ?_, ?_, ?_, ?_⟩
  · rw [handleRequest_trace]
    exact precedes_append _ _ _ _ ho2 (precedes_of_no_p _ _ _ (fun e he => (hk' e he).1))
      (Or.inr (fun e he => (hk' e he).1))
  · rw [handleRequest_trace]
    refine precedes_append _ _ _ _ (precedes_of_no_q _ _ _ hpool) ?_ (Or.inl hpool)
    rw [precedes_cons_not_q _ _ _ _ rfl]
    exact precedes_of_no_p _ _ _ (fun e he => (hk e he).1)
  · rw [handleRequest_trace]
    exact precedes_append _ _ _ _ (precedes_of_no_q _ _ _ hpool)
      (precedes_of_no_p _ _ _ (fun e he => (hk' e he).1)) (Or.inl hpool)
  · rw [handleRequest_trace]
    exact precedes_append _ _ _ _ (precedes_of_no_q _ _ _ hpool)
      (precedes_of_no_p _ _ _ (fun e he => (hk' e he).2)) (Or.inl hpool)

end TreeFrog
